import Mathlib

/-! ## libmqtt client connection: dispatcher and writers

A shallow embedding of `clientconn.go` (package `libmqtt`): the dispatcher
`clientConn.logic`, the application writer `clientConn.handleClientSend` and
the control writer `clientConn.handleLogicSend`.

Channels are modelled as lists, oldest element first: a send on a channel
appends at the end. Pointers are modelled by value. The persistence adapter
is an interface in the source; here it is a record of two functions over an
arbitrary adapter state, so every statement holds for every adapter.
-/

namespace Libmqtt

/-! ## Data model -/

/-- Packet identifier (`uint16` in the source; no arithmetic is done on it). -/
abbrev PacketID := Nat

/-- Modelled from the spec: the type `QosLevel` is declared outside
`clientconn.go`; it is a byte whose meaningful values are 0, 1 and 2. -/
abbrev QosLevel := Nat

/-- Modelled from the spec: constant `Qos0` (declared outside `clientconn.go`). -/
def Qos0 : QosLevel := 0

/-- Modelled from the spec: constant `Qos1` (declared outside `clientconn.go`). -/
def Qos1 : QosLevel := 1

/-- Modelled from the spec: constant `Qos2` (declared outside `clientconn.go`). -/
def Qos2 : QosLevel := 2

/-- Go `error` values, identified by their message. -/
abbrev Error := String

/-- Modelled from the spec: the type `Topic` is declared outside
`clientconn.go`. The dispatcher reads and writes its field `Qos`; a
subscribe packet holds its topics by reference, so that the assignment
`v.Qos = p.Codes[i]` of the dispatcher updates the subscribed topic. -/
structure Topic where
  Name : String
  Qos : QosLevel
deriving DecidableEq, Repr

/-- Modelled from the spec: `PublishPacket` is declared outside
`clientconn.go`; it carries topic, QoS, packet ID and payload. -/
structure PublishPacket where
  IsDup : Bool
  Qos : QosLevel
  IsRetain : Bool
  TopicName : String
  Payload : List Nat
  PacketID : PacketID
deriving DecidableEq, Repr

/-- Modelled from the spec: `SubscribePacket` (fields used by the source). -/
structure SubscribePacket where
  PacketID : PacketID
  Topics : List Topic
deriving DecidableEq, Repr

/-- Modelled from the spec: `SubAckPacket` (fields used by the source). -/
structure SubAckPacket where
  PacketID : PacketID
  Codes : List QosLevel
deriving DecidableEq, Repr

/-- Modelled from the spec: `UnSubPacket` (fields used by the source). -/
structure UnSubPacket where
  PacketID : PacketID
  TopicNames : List String
deriving DecidableEq, Repr

/-- Modelled from the spec: `UnSubAckPacket` (field used by the source). -/
structure UnSubAckPacket where
  PacketID : PacketID
deriving DecidableEq, Repr

/-- Modelled from the spec: `PubAckPacket` (field used by the source). -/
structure PubAckPacket where
  PacketID : PacketID
deriving DecidableEq, Repr

/-- Modelled from the spec: `PubRecvPacket` (field used by the source). -/
structure PubRecvPacket where
  PacketID : PacketID
deriving DecidableEq, Repr

/-- Modelled from the spec: `PubRelPacket` (field used by the source). -/
structure PubRelPacket where
  PacketID : PacketID
deriving DecidableEq, Repr

/-- Modelled from the spec: `PubCompPacket` (field used by the source). -/
structure PubCompPacket where
  PacketID : PacketID
deriving DecidableEq, Repr

/-- Modelled from the spec: the interface `Packet` with its closed set of
variants. A constructor stands for the dynamic type of the Go value, so a
match on it is the source's `switch pkt.Type()` followed by the type
assertion of the chosen case. `Conn` and `ConnAck` carry fields that
`clientconn.go` never reads. -/
inductive Packet where
  | Conn
  | ConnAck
  | Publish (p : PublishPacket)
  | PubAck (p : PubAckPacket)
  | PubRecv (p : PubRecvPacket)
  | PubRel (p : PubRelPacket)
  | PubComp (p : PubCompPacket)
  | Subscribe (p : SubscribePacket)
  | SubAck (p : SubAckPacket)
  | UnSub (p : UnSubPacket)
  | UnSubAck (p : UnSubAckPacket)
  | PingReq
  | PingResp
  | DisConn
deriving DecidableEq, Repr

/-- Direction of a persistence key. -/
inductive Direction where
  | send
  | recv
deriving DecidableEq, Repr

/-- Modelled from the spec: persistence keys are built outside
`clientconn.go`; a key is a pair of a direction and a packet ID, and a
send-key never equals a recv-key. -/
structure PersistKey where
  dir : Direction
  id : PacketID
deriving DecidableEq, Repr

/-- Modelled from the spec: `sendKey` (declared outside `clientconn.go`). -/
def sendKey (id : PacketID) : PersistKey := ⟨Direction.send, id⟩

/-- Modelled from the spec: `recvKey` (declared outside `clientconn.go`). -/
def recvKey (id : PacketID) : PersistKey := ⟨Direction.recv, id⟩

/-- Modelled from the spec: the upward events sent on `msgC`; the
constructors stand for `newPubMsg`, `newSubMsg`, `newUnSubMsg` and
`newPersistMsg`, all declared outside `clientconn.go`. -/
inductive Message where
  | pub (topic : String) (err : Option Error)
  | sub (topics : List Topic) (err : Option Error)
  | unSub (topics : List String) (err : Option Error)
  | persist (err : Error)
deriving DecidableEq, Repr

/-- PublishConfirmed event. -/
def newPubMsg (topic : String) (err : Option Error) : Message := Message.pub topic err

/-- SubscribeConfirmed event. -/
def newSubMsg (topics : List Topic) (err : Option Error) : Message := Message.sub topics err

/-- UnsubscribeConfirmed event. -/
def newUnSubMsg (topics : List String) (err : Option Error) : Message :=
  Message.unSub topics err

/-- PersistenceError event. -/
def newPersistMsg (err : Error) : Message := Message.persist err

/-- Modelled from the spec: the ID allocator `idGen` is declared outside
`clientconn.go`. Only its correlation table is needed here: an association
list from packet ID to the originating packet, with `lookup` and `release`. -/
abbrev IdGenerator := List (PacketID × Packet)

/-- Modelled from the spec: `idGen.getExtra(id)`, the lookup of the
correlation table (`none` is the source's `ok = false`). -/
def IdGenerator.getExtra (g : IdGenerator) (id : PacketID) : Option Packet :=
  List.lookup id g

/-- Modelled from the spec: `idGen.free(id)`, the release of an ID. -/
def IdGenerator.free (g : IdGenerator) (id : PacketID) : IdGenerator :=
  g.filter (fun e => e.1 != id)

/-- Modelled from the spec: the persistence adapter (`c.parent.persist`), an
interface declared outside `clientconn.go`, over an adapter state `σ`:
`Store(key, packet) → error` and `Delete(key) → error`. -/
structure PersistMethod (σ : Type) where
  Store : PersistKey → Packet → σ → σ × Option Error
  Delete : PersistKey → σ → σ × Option Error

/-- The state a `clientConn` and its parent client expose to the code of
`clientconn.go`. `wire` lists the packets flushed to the transport and
`closed` counts the calls of `c.conn.Close()`. -/
structure ClientConn (σ : Type) where
  idGen : IdGenerator
  persist : σ
  msgC : List Message
  recvC : List PublishPacket
  logicSendC : List Packet
  wire : List Packet
  closed : Nat

/-! ## Helpers shared by the dispatcher and the writers -/

/-- The method `c.send(pkt)`: `c.logicSendC <- pkt`. -/
def ClientConn.send {σ : Type} (c : ClientConn σ) (pkt : Packet) : ClientConn σ :=
  { c with logicSendC := c.logicSendC ++ [pkt] }

/-- The statement `c.parent.msgC <- m`. -/
def ClientConn.emit {σ : Type} (c : ClientConn σ) (m : Message) : ClientConn σ :=
  { c with msgC := c.msgC ++ [m] }

/-- The idiom
`if err := c.parent.persist.Store(key, pkt); err != nil { c.parent.msgC <- newPersistMsg(err) }`. -/
def ClientConn.persistStore {σ : Type} (P : PersistMethod σ) (c : ClientConn σ)
    (key : PersistKey) (pkt : Packet) : ClientConn σ :=
  match P.Store key pkt c.persist with
  | (st, some err) => ({ c with persist := st }).emit (newPersistMsg err)
  | (st, none) => { c with persist := st }

/-- The idiom
`if err := c.parent.persist.Delete(key); err != nil { c.parent.msgC <- newPersistMsg(err) }`. -/
def ClientConn.persistDelete {σ : Type} (P : PersistMethod σ) (c : ClientConn σ)
    (key : PersistKey) : ClientConn σ :=
  match P.Delete key c.persist with
  | (st, some err) => ({ c with persist := st }).emit (newPersistMsg err)
  | (st, none) => { c with persist := st }

/-- The loop of the `CtrlSubAck` case,
`for i, v := range originSub.Topics { if i < N { v.Qos = p.Codes[i] } }`,
started at index `i`. -/
def grantCodes (codes : List QosLevel) : Nat → List Topic → List Topic
  | _, [] => []
  | i, v :: rest =>
    (if h : i < codes.length then { v with Qos := codes[i] } else v)
      :: grantCodes codes (i + 1) rest

/-! ## The dispatcher `clientConn.logic` -/

/-- One iteration of `for pkt := range c.netRecvC` in `clientConn.logic`. -/
def logicStep {σ : Type} (P : PersistMethod σ) (c : ClientConn σ) (pkt : Packet) :
    ClientConn σ :=
  match pkt with
  | Packet.SubAck p =>
    match c.idGen.getExtra p.PacketID with
    | some (Packet.Subscribe originSub) =>
      let topics := grantCodes p.Codes 0 originSub.Topics
      let c1 := c.emit (newSubMsg topics none)
      let c2 := { c1 with idGen := c1.idGen.free p.PacketID }
      c2.persistDelete P (sendKey p.PacketID)
    | _ => c
  | Packet.UnSubAck p =>
    match c.idGen.getExtra p.PacketID with
    | some (Packet.UnSub originUnSub) =>
      let c1 := c.emit (newUnSubMsg originUnSub.TopicNames none)
      let c2 := { c1 with idGen := c1.idGen.free p.PacketID }
      c2.persistDelete P (sendKey p.PacketID)
    | _ => c
  | Packet.Publish p =>
    let c1 := { c with recvC := c.recvC ++ [p] }
    if p.Qos = Qos1 then
      (c1.send (Packet.PubAck ⟨p.PacketID⟩)).persistStore P (recvKey p.PacketID) pkt
    else if p.Qos = Qos2 then
      (c1.send (Packet.PubRecv ⟨p.PacketID⟩)).persistStore P (recvKey p.PacketID) pkt
    else c1
  | Packet.PubAck p =>
    match c.idGen.getExtra p.PacketID with
    | some (Packet.Publish originPub) =>
      if originPub.Qos = Qos1 then
        let c1 := c.emit (newPubMsg originPub.TopicName none)
        let c2 := { c1 with idGen := c1.idGen.free p.PacketID }
        c2.persistDelete P (sendKey p.PacketID)
      else c
    | _ => c
  | Packet.PubRecv p =>
    match c.idGen.getExtra p.PacketID with
    | some (Packet.Publish originPub) =>
      if originPub.Qos = Qos2 then c.send (Packet.PubRel ⟨p.PacketID⟩) else c
    | _ => c
  | Packet.PubRel p =>
    match c.idGen.getExtra p.PacketID with
    | some (Packet.Publish originPub) =>
      if originPub.Qos = Qos2 then
        (c.send (Packet.PubComp ⟨p.PacketID⟩)).persistStore P (recvKey p.PacketID) pkt
      else c
    | _ => c
  | Packet.PubComp p =>
    match c.idGen.getExtra p.PacketID with
    | some (Packet.Publish originPub) =>
      if originPub.Qos = Qos2 then
        let c1 := c.send (Packet.PubRel ⟨p.PacketID⟩)
        let c2 := c1.emit (newPubMsg originPub.TopicName none)
        let c3 := { c2 with idGen := c2.idGen.free p.PacketID }
        c3.persistDelete P (sendKey p.PacketID)
      else c
    | _ => c
  | _ => c

/-- The loop `for pkt := range c.netRecvC` of `clientConn.logic`, run on the
packets the reader delivers, in order. (The keepalive goroutine that `logic`
starts first runs on its own and is not part of this loop.) -/
def logic {σ : Type} (P : PersistMethod σ) (c : ClientConn σ) (pkts : List Packet) :
    ClientConn σ :=
  pkts.foldl (logicStep P) c

/-! ## The writers -/

/-- Outcome of `EncodeOnePacket` followed by `c.connW.Flush()` for one
packet: both succeed, the encoding fails, or the flush fails. -/
inductive WriteResult where
  | ok
  | encodeErr
  | flushErr
deriving DecidableEq, Repr

/-- The body of the loop of `handleClientSend` after a successful encode
and flush of `pkt`: the `switch pkt.Type()`. -/
def clientSendStep {σ : Type} (c : ClientConn σ) (pkt : Packet) : ClientConn σ :=
  let c1 := { c with wire := c.wire ++ [pkt] }
  match pkt with
  | Packet.Publish p => c1.emit (newPubMsg p.TopicName none)
  | Packet.Subscribe p => c1.emit (newSubMsg p.Topics none)
  | Packet.UnSub p => c1.emit (newUnSubMsg p.TopicNames none)
  | _ => c1

/-- The application writer `clientConn.handleClientSend`, run on the packets
of `c.parent.sendC`, each paired with the outcome of its encode and flush.
An encode or flush error leaves the loop (`break`). -/
def handleClientSend {σ : Type} : List (Packet × WriteResult) → ClientConn σ → ClientConn σ
  | [], c => c
  | (pkt, WriteResult.ok) :: rest, c => handleClientSend rest (clientSendStep c pkt)
  | (_, WriteResult.encodeErr) :: _, c => c
  | (_, WriteResult.flushErr) :: _, c => c

/-- The body of the loop of `handleLogicSend` after a successful encode and
flush of `logicPkt`: the `switch logicPkt.Type()`. The `break` of the
`CtrlDisConn` case leaves the `switch`, not the loop. -/
def logicSendStep {σ : Type} (P : PersistMethod σ) (c : ClientConn σ) (logicPkt : Packet) :
    ClientConn σ :=
  let c1 := { c with wire := c.wire ++ [logicPkt] }
  match logicPkt with
  | Packet.PubRel p => c1.persistStore P (sendKey p.PacketID) logicPkt
  | Packet.PubAck p => c1.persistDelete P (sendKey p.PacketID)
  | Packet.PubComp p => c1.persistDelete P (sendKey p.PacketID)
  | Packet.DisConn => { c1 with closed := c1.closed + 1 }
  | _ => c1

/-- The control writer `clientConn.handleLogicSend`, run on the packets of
`c.logicSendC`, each paired with the outcome of its encode and flush. An
encode or flush error leaves the loop (`break`). -/
def handleLogicSend {σ : Type} (P : PersistMethod σ) :
    List (Packet × WriteResult) → ClientConn σ → ClientConn σ
  | [], c => c
  | (pkt, WriteResult.ok) :: rest, c => handleLogicSend P rest (logicSendStep P c pkt)
  | (_, WriteResult.encodeErr) :: _, c => c
  | (_, WriteResult.flushErr) :: _, c => c

/-! ## Adapters used to run the code on concrete inputs -/

/-- An in-memory adapter that never fails: `Store` replaces the entry of the
key, `Delete` removes it. -/
def memPersist : PersistMethod (List (PersistKey × Packet)) where
  Store := fun key pkt st => ((key, pkt) :: st.filter (fun e => e.1 != key), none)
  Delete := fun key st => (st.filter (fun e => e.1 != key), none)

/-- An adapter whose every call fails with `err` and changes nothing. -/
def failPersist (err : Error) : PersistMethod (List (PersistKey × Packet)) where
  Store := fun _ _ st => (st, some err)
  Delete := fun _ st => (st, some err)

/-- The events of `msgC` that report the result `r` of one adapter call:
one PersistenceError when the call failed, none when it returned nil. -/
def persistMsgs (r : Option Error) : List Message :=
  match r with
  | some err => [newPersistMsg err]
  | none => []

/-- Scenario A: the correlation table maps ID 1 to the subscribe packet
sent for topics `a/b` (QoS 1) and `c/d` (QoS 2); the store holds its
send-entry. -/
def scenarioA : ClientConn (List (PersistKey × Packet)) where
  idGen := [(1, Packet.Subscribe ⟨1, [⟨"a/b", 1⟩, ⟨"c/d", 2⟩]⟩)]
  persist := [(sendKey 1, Packet.Subscribe ⟨1, [⟨"a/b", 1⟩, ⟨"c/d", 2⟩]⟩)]
  msgC := []
  recvC := []
  logicSendC := []
  wire := []
  closed := 0

/-- An outgoing publish with the given QoS, topic and packet ID. -/
def outPublish (qos : QosLevel) (topic : String) (id : PacketID) : PublishPacket where
  IsDup := false
  Qos := qos
  IsRetain := false
  TopicName := topic
  Payload := []
  PacketID := id

/-- A connection whose correlation table is `g`, with an empty store and
empty channels. -/
def connOf (g : IdGenerator) : ClientConn (List (PersistKey × Packet)) where
  idGen := g
  persist := []
  msgC := []
  recvC := []
  logicSendC := []
  wire := []
  closed := 0

/-- Whether an event is a PersistenceError. -/
def Message.isPersist : Message → Bool
  | Message.persist _ => true
  | _ => false

/-- The confirmation events of a channel content: every event that is not a
PersistenceError, in order. -/
def confirmations (ms : List Message) : List Message :=
  ms.filter (fun m => !m.isPersist)

/-- Two connection states, over possibly different adapters, that differ at
most in the store and in the PersistenceError events emitted: same
correlation table, same queued control packets, same inbox deliveries, same
confirmation events, same packets on the wire and same number of closes. -/
def SameProgress {σ τ : Type} (a : ClientConn σ) (b : ClientConn τ) : Prop :=
  a.idGen = b.idGen ∧ a.logicSendC = b.logicSendC ∧ a.recvC = b.recvC ∧
  confirmations a.msgC = confirmations b.msgC ∧ a.wire = b.wire ∧ a.closed = b.closed

/-- The control writer sends every packet queued for it: `handleLogicSend`
takes the packets of `c.logicSendC` in order, and each encode and flush
succeeds. -/
def sendQueued {σ : Type} (P : PersistMethod σ) (c : ClientConn σ) : ClientConn σ :=
  handleLogicSend P (c.logicSendC.map (fun pkt => (pkt, WriteResult.ok)))
    { c with logicSendC := [] }

/-- The packets that a writer loop passes to `EncodeOnePacket`, in order.
Both `handleClientSend` and `handleLogicSend` call it on every packet they
take from their channel, and leave the loop at the first encode or flush
that fails; no case of either `switch` leaves the loop. -/
def encodeCalls : List (Packet × WriteResult) → List Packet
  | [] => []
  | (pkt, WriteResult.ok) :: rest => pkt :: encodeCalls rest
  | (pkt, WriteResult.encodeErr) :: _ => [pkt]
  | (pkt, WriteResult.flushErr) :: _ => [pkt]

/-- A call of the persistence adapter. -/
inductive PersistCall where
  | store (key : PersistKey) (pkt : Packet)
  | delete (key : PersistKey)
deriving DecidableEq, Repr

/-- An adapter that records every call made to it, in order, and answers
each call with `r`. -/
def logPersist (r : PersistCall → Option Error) : PersistMethod (List PersistCall) where
  Store := fun key pkt st => (st ++ [PersistCall.store key pkt], r (PersistCall.store key pkt))
  Delete := fun key st => (st ++ [PersistCall.delete key], r (PersistCall.delete key))

/-- An outstanding outgoing QoS-1 publish on topic `t` with ID 3: the
correlation table maps 3 to it and the store holds its send-entry. -/
def pendingQos1 : ClientConn (List (PersistKey × Packet)) where
  idGen := [(3, Packet.Publish (outPublish 1 "t" 3))]
  persist := [(sendKey 3, Packet.Publish (outPublish 1 "t" 3))]
  msgC := []
  recvC := []
  logicSendC := []
  wire := []
  closed := 0

/-- Scenario C: the correlation table maps ID 7 to the outgoing QoS-2
publish on topic `x`; the store is empty. -/
def scenarioC : ClientConn (List (PersistKey × Packet)) :=
  connOf [(7, Packet.Publish (outPublish 2 "x" 7))]

/-! ## The reader `clientConn.handleRecv` -/

/-- What `handleRecv` writes: the two output channels, how often each was
closed, and the number of calls of `DecodeOnePacket`. -/
structure RecvConn where
  netRecvC : List Packet
  keepaliveC : List Nat
  netRecvClosed : Nat
  keepaliveClosed : Nat
  decodeCalls : Nat
deriving DecidableEq, Repr

/-- The reader `clientConn.handleRecv`, run on the results of the
successive calls of `DecodeOnePacket`. A decode error closes both channels
and leaves the loop; `PingRespPacket` goes to `keepaliveC` as the value 1,
every other packet goes to `netRecvC`. -/
def handleRecv : List (Except Error Packet) → RecvConn → RecvConn
  | [], s => s
  | Except.error _ :: _, s =>
    { s with decodeCalls := s.decodeCalls + 1,
             netRecvClosed := s.netRecvClosed + 1,
             keepaliveClosed := s.keepaliveClosed + 1 }
  | Except.ok pkt :: rest, s =>
    if pkt = Packet.PingResp then
      handleRecv rest { s with decodeCalls := s.decodeCalls + 1,
                               keepaliveC := s.keepaliveC ++ [1] }
    else
      handleRecv rest { s with decodeCalls := s.decodeCalls + 1,
                               netRecvC := s.netRecvC ++ [pkt] }

/-! ## The keepalive monitor `clientConn.keepalive` -/

/-- What the `select` of one iteration finds on `c.keepaliveC`: a value
that can be received `wait` nanoseconds after the `select` is entered, the
channel found closed after `wait` nanoseconds, or nothing at all. -/
inductive ChanEvent where
  | signal (wait : Nat)
  | closed (wait : Nat)
  | silent
deriving DecidableEq, Repr

/-- What the environment decides in one iteration of the loop: the event on
`c.keepaliveC`; `chanFirst`, whether the `select` picks the channel case
when the channel and the timer are ready at the same moment (Go picks
either); and `tickKept`, whether a tick that fires at the very moment a
late monitor takes the buffered tick is kept for the next iteration or
dropped because the buffer was still full. -/
structure KeepaliveInput where
  chan : ChanEvent
  chanFirst : Bool
  tickKept : Bool
deriving DecidableEq, Repr

/-- The monitor on a clock that counts nanoseconds from the entry of
`keepalive()`: the time `now`, the time `nextTick` from which the ticker
`t` has its next tick ready, the time `deadline` at which `timeoutTimer`
fires, whether `timeoutTimer.C` holds a `stale` value left by a firing
before the last `Reset`, the times at which `c.send(PingReqPacket)` and
`c.conn.Close()` were called, and whether the function has returned. -/
structure Monitor where
  now : Nat
  nextTick : Nat
  deadline : Nat
  stale : Bool
  pingReqs : List Nat
  closes : List Nat
  returned : Bool
deriving DecidableEq, Repr

/-- Two's-complement wrap of an integer to the range of `int64`. -/
def wrapInt64 (x : Int) : Int := (x + 2 ^ 63) % 2 ^ 64 - 2 ^ 63

/-- The ticker period `c.parent.options.keepalive * 3 / 4`, in nanoseconds.
`time.Duration` is an `int64`: the product wraps and the division
truncates toward zero. -/
def tickPeriod (keepalive : Int) : Int := Int.tdiv (wrapInt64 (keepalive * 3)) 4

/-- The monitor before the loop: a ticker of period `period` and a timer
of `timeout` are both created at time 0, so the first tick comes at
`period` and the timer fires at `timeout`. -/
def keepaliveStart (period timeout : Nat) : Monitor where
  now := 0
  nextTick := period
  deadline := timeout
  stale := false
  pingReqs := []
  closes := []
  returned := false

/-- The `case <-timeoutTimer.C` of the `select`, taken at time `fire`:
`t.Stop()`, `c.conn.Close()`, `return`. -/
def Monitor.timedOut (m : Monitor) (fire : Nat) : Monitor :=
  { m with now := fire, closes := m.closes ++ [fire], returned := true }

/-- One iteration of `for range t.C` in `keepalive`, for a ticker of period
`period` and a timer re-armed for `timeout`.

The tick is received at `start`: when it fires, or at once when the
monitor is late and the tick is buffered. The ticker fires on multiples of
`period` and drops a tick while its buffer is full, so the next tick is
the first multiple after `start` (or `start` itself, on a tie decided by
`tickKept`). `c.send(PingReqPacket)` takes no time. The timer channel is
ready from `fire` on: at once if it holds a stale value, else when the
deadline has passed. The `select` takes the case that is ready first, and
on a tie the one `chanFirst` names. A received value re-arms the timer,
`timeoutTimer.Reset(timeout)`; if the timer had fired by then, its value
stays in the channel when `keepStale` holds (Go before 1.23) and is
discarded otherwise. A closed channel makes the function return. -/
def keepaliveStep (period timeout : Nat) (keepStale : Bool) (m : Monitor)
    (inp : KeepaliveInput) : Monitor :=
  if m.returned then m
  else
    let start := max m.now m.nextTick
    let next :=
      if m.nextTick < start ∧ (start - m.nextTick) % period = 0 ∧ inp.tickKept = true then start
      else m.nextTick + period * ((start - m.nextTick) / period + 1)
    let m1 := { m with now := start, nextTick := next, pingReqs := m.pingReqs ++ [start] }
    let fire := if m.stale then start else max start m.deadline
    match inp.chan with
    | ChanEvent.signal wait =>
      if start + wait < fire ∨ (start + wait = fire ∧ inp.chanFirst = true) then
        { m1 with now := start + wait, deadline := start + wait + timeout,
                  stale := keepStale && decide (start + wait = fire) }
      else m1.timedOut fire
    | ChanEvent.closed wait =>
      if start + wait < fire ∨ (start + wait = fire ∧ inp.chanFirst = true) then
        { m1 with now := start + wait, returned := true }
      else m1.timedOut fire
    | ChanEvent.silent => m1.timedOut fire

/-- The monitor `clientConn.keepalive`, run on what the environment decides
in its successive iterations. `keepalive` is the configured period and
`timeout` the value of `time.Duration(float64(keepalive) * keepaliveFactor)`,
both `int64` counts of nanoseconds. `time.NewTicker` panics on a period
that is not positive: the result is then `none`. A timer set for a
duration that is not positive fires at once. -/
def keepalive (keepalive timeout : Int) (keepStale : Bool) (evs : List KeepaliveInput) :
    Option Monitor :=
  if 0 < tickPeriod keepalive then
    some (evs.foldl (keepaliveStep (tickPeriod keepalive).toNat timeout.toNat keepStale)
      (keepaliveStart (tickPeriod keepalive).toNat timeout.toNat))
  else none

/-- What one dispatcher step delivers to the application inbox: the
packet itself when it is a Publish, nothing otherwise. -/
def inboxOf : Packet → List PublishPacket
  | Packet.Publish p => [p]
  | _ => []

/-- The reader before it has decoded anything. -/
def recvStart : RecvConn where
  netRecvC := []
  keepaliveC := []
  netRecvClosed := 0
  keepaliveClosed := 0
  decodeCalls := 0

/-! ## Lemmas on the helpers -/

theorem lookup_cons_ne (g : IdGenerator) (j k : PacketID) (v : Packet) (h : j ≠ k) :
    List.lookup j ((k, v) :: g) = List.lookup j g := by
  have hb : (j == k) = false := by
    simp only [beq_eq_false_iff_ne]
    exact h
  rw [List.lookup_cons, hb]

theorem lookup_cons_self (g : IdGenerator) (k : PacketID) (v : Packet) :
    List.lookup k ((k, v) :: g) = some v := by
  have hb : (k == k) = true := by simp
  rw [List.lookup_cons, hb]

theorem getExtra_free_self (g : IdGenerator) (id : PacketID) :
    (g.free id).getExtra id = none := by
  induction g with
  | nil => rfl
  | cons e g ih =>
    obtain ⟨k, v⟩ := e
    simp only [IdGenerator.free, IdGenerator.getExtra] at ih ⊢
    by_cases hk : k = id
    · rw [List.filter_cons_of_neg (by simp [hk])]
      exact ih
    · rw [List.filter_cons_of_pos (by simp [hk]), lookup_cons_ne _ _ _ _ (fun h => hk h.symm)]
      exact ih

theorem getExtra_free_ne (g : IdGenerator) (id j : PacketID) (hj : j ≠ id) :
    (g.free id).getExtra j = g.getExtra j := by
  induction g with
  | nil => rfl
  | cons e g ih =>
    obtain ⟨k, v⟩ := e
    simp only [IdGenerator.free, IdGenerator.getExtra] at ih ⊢
    by_cases hk : k = id
    · rw [List.filter_cons_of_neg (by simp [hk]),
        lookup_cons_ne _ _ _ _ (fun h => hj (h.trans hk))]
      exact ih
    · rw [List.filter_cons_of_pos (by simp [hk])]
      by_cases hjk : j = k
      · subst hjk
        rw [lookup_cons_self, lookup_cons_self]
      · rw [lookup_cons_ne _ _ _ _ hjk, lookup_cons_ne _ _ _ _ hjk]
        exact ih

theorem persistDelete_eq {σ : Type} (P : PersistMethod σ) (c : ClientConn σ)
    (key : PersistKey) :
    c.persistDelete P key =
      { c with persist := (P.Delete key c.persist).1,
               msgC := c.msgC ++ persistMsgs (P.Delete key c.persist).2 } := by
  unfold ClientConn.persistDelete
  rcases h : P.Delete key c.persist with ⟨st, _ | err⟩ <;>
    simp [persistMsgs, ClientConn.emit]

theorem persistStore_eq {σ : Type} (P : PersistMethod σ) (c : ClientConn σ)
    (key : PersistKey) (pkt : Packet) :
    c.persistStore P key pkt =
      { c with persist := (P.Store key pkt c.persist).1,
               msgC := c.msgC ++ persistMsgs (P.Store key pkt c.persist).2 } := by
  unfold ClientConn.persistStore
  rcases h : P.Store key pkt c.persist with ⟨st, _ | err⟩ <;>
    simp [persistMsgs, ClientConn.emit]

theorem grantCodes_length (codes : List QosLevel) (ts : List Topic) (i : Nat) :
    (grantCodes codes i ts).length = ts.length := by
  induction ts generalizing i with
  | nil => rfl
  | cons v rest ih => simp [grantCodes, ih]

theorem grantCodes_getElem? (codes : List QosLevel) (ts : List Topic) (i k : Nat) :
    (grantCodes codes i ts)[k]? =
      (ts[k]?).map (fun v =>
        if h : i + k < codes.length then { v with Qos := codes[i + k] } else v) := by
  induction ts generalizing i k with
  | nil => simp [grantCodes]
  | cons v rest ih =>
    cases k with
    | zero => simp [grantCodes]
    | succ k =>
      have e : i + 1 + k = i + (k + 1) := by omega
      simp [grantCodes, ih, e]

/-! ## The dispatcher, case by case -/

/-- C1: when the correlation table maps the ID of a SubAck to a Subscribe
packet with topics `T`, processing `SubAck(id, C)` (1) yields a topic list
of the same length in which topic `i` has QoS `C[i]` (and its own name) for
every `i` below both lengths and is unchanged at every position from
`len C` on, (2) emits exactly one SubscribeConfirmed, carrying that list
and a nil error, followed only by the report of the Delete call, (3) frees
the ID and no other ID, and (4) calls Delete on the send-key of the ID. -/
theorem logicStep_subAck_confirms {σ : Type} (P : PersistMethod σ) (c : ClientConn σ)
    (id : PacketID) (originSub : SubscribePacket) (C : List QosLevel)
    (h : c.idGen.getExtra id = some (Packet.Subscribe originSub)) :
    (grantCodes C 0 originSub.Topics).length = originSub.Topics.length ∧
    (∀ i (hT : i < originSub.Topics.length) (hC : i < C.length),
      (grantCodes C 0 originSub.Topics)[i]? = some ⟨originSub.Topics[i].Name, C[i]⟩) ∧
    (∀ i, C.length ≤ i → (grantCodes C 0 originSub.Topics)[i]? = originSub.Topics[i]?) ∧
    (logicStep P c (Packet.SubAck ⟨id, C⟩)).msgC =
      c.msgC ++ [newSubMsg (grantCodes C 0 originSub.Topics) none]
        ++ persistMsgs (P.Delete (sendKey id) c.persist).2 ∧
    (logicStep P c (Packet.SubAck ⟨id, C⟩)).idGen.getExtra id = none ∧
    (∀ j, j ≠ id →
      (logicStep P c (Packet.SubAck ⟨id, C⟩)).idGen.getExtra j = c.idGen.getExtra j) ∧
    (logicStep P c (Packet.SubAck ⟨id, C⟩)).persist = (P.Delete (sendKey id) c.persist).1 ∧
    (logicStep P c (Packet.SubAck ⟨id, C⟩)).logicSendC = c.logicSendC ∧
    (logicStep P c (Packet.SubAck ⟨id, C⟩)).recvC = c.recvC := by
  have hstep : logicStep P c (Packet.SubAck ⟨id, C⟩) =
      ({ (c.emit (newSubMsg (grantCodes C 0 originSub.Topics) none)) with
          idGen := c.idGen.free id }).persistDelete P (sendKey id) := by
    simp only [logicStep, h]
    rfl
  refine ⟨grantCodes_length _ _ _, ?_, ?_, ?_, ?_, ?_, ?_, ?_, ?_⟩
  · intro i hT hC
    rw [grantCodes_getElem?, List.getElem?_eq_getElem hT]
    simp [hC]
  · intro i hi
    rw [grantCodes_getElem?]
    have hn : ¬ (0 + i < C.length) := by omega
    cases hti : originSub.Topics[i]? with
    | none => rfl
    | some v =>
      simp only [Option.map_some', dif_neg hn]
  · rw [hstep, persistDelete_eq]
    simp [ClientConn.emit]
  · rw [hstep, persistDelete_eq]
    exact getExtra_free_self _ _
  · intro j hj
    rw [hstep, persistDelete_eq]
    exact getExtra_free_ne _ _ _ hj
  · rw [hstep, persistDelete_eq]
    rfl
  · rw [hstep, persistDelete_eq]
    rfl
  · rw [hstep, persistDelete_eq]
    rfl

/-- Scenario A evaluated: `Subscribe(id=1, [("a/b",1),("c/d",2)])` then
`SubAck(id=1, codes=[1,2])` emits SubscribeConfirmed with QoS values
`[1,2]`, frees ID 1 and deletes the send-entry of ID 1. -/
theorem logicStep_subAck_confirms_witness :
    scenarioA.idGen.getExtra 1
      = some (Packet.Subscribe ⟨1, [⟨"a/b", 1⟩, ⟨"c/d", 2⟩]⟩) ∧
    (logicStep memPersist scenarioA (Packet.SubAck ⟨1, [1, 2]⟩)).msgC
      = [newSubMsg [⟨"a/b", 1⟩, ⟨"c/d", 2⟩] none] ∧
    (logicStep memPersist scenarioA (Packet.SubAck ⟨1, [1, 2]⟩)).idGen.getExtra 1 = none ∧
    (logicStep memPersist scenarioA (Packet.SubAck ⟨1, [1, 2]⟩)).persist = [] := by
  have t := logicStep_subAck_confirms memPersist scenarioA 1
    ⟨1, [⟨"a/b", 1⟩, ⟨"c/d", 2⟩]⟩ [1, 2] rfl
  refine ⟨rfl, ?_, t.2.2.2.2.1, ?_⟩
  · rw [t.2.2.2.1]
    rfl
  · rw [t.2.2.2.2.2.2.1]
    rfl

/-- C2: when the correlation table maps the ID of a PubAck to an outgoing
Publish with QoS 1 and topic `t`, processing `PubAck(id)` emits exactly one
PublishConfirmed(t, nil), followed only by the report of the Delete call,
frees the ID and no other, calls Delete on the send-key of the ID, and
queues no control packet. -/
theorem logicStep_pubAck_confirms {σ : Type} (P : PersistMethod σ) (c : ClientConn σ)
    (id : PacketID) (originPub : PublishPacket)
    (h : c.idGen.getExtra id = some (Packet.Publish originPub))
    (hq : originPub.Qos = 1) :
    (logicStep P c (Packet.PubAck ⟨id⟩)).msgC =
      c.msgC ++ [newPubMsg originPub.TopicName none]
        ++ persistMsgs (P.Delete (sendKey id) c.persist).2 ∧
    (logicStep P c (Packet.PubAck ⟨id⟩)).idGen.getExtra id = none ∧
    (∀ j, j ≠ id →
      (logicStep P c (Packet.PubAck ⟨id⟩)).idGen.getExtra j = c.idGen.getExtra j) ∧
    (logicStep P c (Packet.PubAck ⟨id⟩)).persist = (P.Delete (sendKey id) c.persist).1 ∧
    (logicStep P c (Packet.PubAck ⟨id⟩)).logicSendC = c.logicSendC := by
  have hstep : logicStep P c (Packet.PubAck ⟨id⟩) =
      ({ (c.emit (newPubMsg originPub.TopicName none)) with
          idGen := c.idGen.free id }).persistDelete P (sendKey id) := by
    simp only [logicStep, h, hq, Qos1]
    rfl
  rw [hstep, persistDelete_eq]
  refine ⟨?_, getExtra_free_self _ _, fun j hj => getExtra_free_ne _ _ _ hj, rfl, rfl⟩
  simp [ClientConn.emit]

/-- C2 at a concrete input: ID 3 maps to a QoS-1 publish on topic `t`. -/
theorem logicStep_pubAck_confirms_witness :
    (connOf [(3, Packet.Publish (outPublish 1 "t" 3))]).idGen.getExtra 3
      = some (Packet.Publish (outPublish 1 "t" 3)) ∧
    (outPublish 1 "t" 3).Qos = 1 ∧
    (logicStep memPersist (connOf [(3, Packet.Publish (outPublish 1 "t" 3))])
      (Packet.PubAck ⟨3⟩)).msgC = [newPubMsg "t" none] ∧
    (logicStep memPersist (connOf [(3, Packet.Publish (outPublish 1 "t" 3))])
      (Packet.PubAck ⟨3⟩)).logicSendC = [] := by
  have t := logicStep_pubAck_confirms memPersist
    (connOf [(3, Packet.Publish (outPublish 1 "t" 3))]) 3 (outPublish 1 "t" 3) rfl rfl
  refine ⟨rfl, rfl, ?_, t.2.2.2.2⟩
  rw [t.1]
  rfl

/-- C3: when the correlation table maps the ID of a PubComp to an outgoing
Publish with QoS 2 and topic `t`, processing `PubComp(id)` emits exactly
one PublishConfirmed(t, nil), followed only by the report of the Delete
call, frees the ID and no other, and calls Delete on the send-key of the
ID. -/
theorem logicStep_pubComp_confirms {σ : Type} (P : PersistMethod σ) (c : ClientConn σ)
    (id : PacketID) (originPub : PublishPacket)
    (h : c.idGen.getExtra id = some (Packet.Publish originPub))
    (hq : originPub.Qos = 2) :
    (logicStep P c (Packet.PubComp ⟨id⟩)).msgC =
      c.msgC ++ [newPubMsg originPub.TopicName none]
        ++ persistMsgs (P.Delete (sendKey id) c.persist).2 ∧
    (logicStep P c (Packet.PubComp ⟨id⟩)).idGen.getExtra id = none ∧
    (∀ j, j ≠ id →
      (logicStep P c (Packet.PubComp ⟨id⟩)).idGen.getExtra j = c.idGen.getExtra j) ∧
    (logicStep P c (Packet.PubComp ⟨id⟩)).persist = (P.Delete (sendKey id) c.persist).1 := by
  have hstep : logicStep P c (Packet.PubComp ⟨id⟩) =
      ({ ((c.send (Packet.PubRel ⟨id⟩)).emit (newPubMsg originPub.TopicName none)) with
          idGen := c.idGen.free id }).persistDelete P (sendKey id) := by
    simp only [logicStep, h, hq, Qos2]
    rfl
  rw [hstep, persistDelete_eq]
  refine ⟨?_, getExtra_free_self _ _, fun j hj => getExtra_free_ne _ _ _ hj, rfl⟩
  simp [ClientConn.emit, ClientConn.send]

/-- C3 at a concrete input: ID 7 maps to a QoS-2 publish on topic `x`. -/
theorem logicStep_pubComp_confirms_witness :
    (connOf [(7, Packet.Publish (outPublish 2 "x" 7))]).idGen.getExtra 7
      = some (Packet.Publish (outPublish 2 "x" 7)) ∧
    (outPublish 2 "x" 7).Qos = 2 ∧
    (logicStep memPersist (connOf [(7, Packet.Publish (outPublish 2 "x" 7))])
      (Packet.PubComp ⟨7⟩)).msgC = [newPubMsg "x" none] ∧
    (logicStep memPersist (connOf [(7, Packet.Publish (outPublish 2 "x" 7))])
      (Packet.PubComp ⟨7⟩)).idGen.getExtra 7 = none := by
  have t := logicStep_pubComp_confirms memPersist
    (connOf [(7, Packet.Publish (outPublish 2 "x" 7))]) 7 (outPublish 2 "x" 7) rfl rfl
  refine ⟨rfl, rfl, ?_, t.2.1⟩
  rw [t.1]
  rfl

/-- C4: for every inbound Publish `p` and every state, `p` is appended once
to the application inbox whatever its QoS and the correlation table is
unchanged; with QoS 1 exactly `PubAck(p.id)` is queued and `p` is stored
under the recv-key of `p.id`; with QoS 2 exactly `PubRec(p.id)` is queued
and `p` is stored under the recv-key of `p.id`; with QoS 0 nothing is
queued, the store is untouched and no event is emitted. -/
theorem logicStep_publish_inbound {σ : Type} (P : PersistMethod σ) (c : ClientConn σ)
    (p : PublishPacket) :
    (logicStep P c (Packet.Publish p)).recvC = c.recvC ++ [p] ∧
    (logicStep P c (Packet.Publish p)).idGen = c.idGen ∧
    (p.Qos = 1 →
      (logicStep P c (Packet.Publish p)).logicSendC
        = c.logicSendC ++ [Packet.PubAck ⟨p.PacketID⟩] ∧
      (logicStep P c (Packet.Publish p)).persist
        = (P.Store (recvKey p.PacketID) (Packet.Publish p) c.persist).1 ∧
      (logicStep P c (Packet.Publish p)).msgC
        = c.msgC ++ persistMsgs (P.Store (recvKey p.PacketID) (Packet.Publish p) c.persist).2) ∧
    (p.Qos = 2 →
      (logicStep P c (Packet.Publish p)).logicSendC
        = c.logicSendC ++ [Packet.PubRecv ⟨p.PacketID⟩] ∧
      (logicStep P c (Packet.Publish p)).persist
        = (P.Store (recvKey p.PacketID) (Packet.Publish p) c.persist).1 ∧
      (logicStep P c (Packet.Publish p)).msgC
        = c.msgC ++ persistMsgs (P.Store (recvKey p.PacketID) (Packet.Publish p) c.persist).2) ∧
    (p.Qos = 0 →
      (logicStep P c (Packet.Publish p)).logicSendC = c.logicSendC ∧
      (logicStep P c (Packet.Publish p)).persist = c.persist ∧
      (logicStep P c (Packet.Publish p)).msgC = c.msgC) := by
  by_cases h1 : p.Qos = 1
  · have hstep : logicStep P c (Packet.Publish p) =
        (({ c with recvC := c.recvC ++ [p] }).send (Packet.PubAck ⟨p.PacketID⟩)).persistStore P
          (recvKey p.PacketID) (Packet.Publish p) := by
      simp [logicStep, h1, Qos1]
    rw [hstep, persistStore_eq]
    exact ⟨rfl, rfl, fun _ => ⟨rfl, rfl, rfl⟩,
      fun h2 => absurd (h1.symm.trans h2) (by decide),
      fun h0 => absurd (h1.symm.trans h0) (by decide)⟩
  · by_cases h2 : p.Qos = 2
    · have hstep : logicStep P c (Packet.Publish p) =
          (({ c with recvC := c.recvC ++ [p] }).send (Packet.PubRecv ⟨p.PacketID⟩)).persistStore P
            (recvKey p.PacketID) (Packet.Publish p) := by
        simp [logicStep, h2, Qos1, Qos2]
      rw [hstep, persistStore_eq]
      exact ⟨rfl, rfl, fun h => absurd h h1, fun _ => ⟨rfl, rfl, rfl⟩,
        fun h0 => absurd (h2.symm.trans h0) (by decide)⟩
    · have hstep : logicStep P c (Packet.Publish p) = { c with recvC := c.recvC ++ [p] } := by
        simp [logicStep, h1, h2, Qos1, Qos2]
      rw [hstep]
      exact ⟨rfl, rfl, fun h => absurd h h1, fun h => absurd h h2, fun _ => ⟨rfl, rfl, rfl⟩⟩

/-- C4 at concrete inputs: an inbound QoS-1 publish with ID 9 is delivered
once and answered by `PubAck(9)`; the store then holds it under the
recv-key of 9. -/
theorem logicStep_publish_inbound_witness :
    (logicStep memPersist (connOf []) (Packet.Publish (outPublish 1 "n" 9))).recvC
      = [outPublish 1 "n" 9] ∧
    (logicStep memPersist (connOf []) (Packet.Publish (outPublish 1 "n" 9))).logicSendC
      = [Packet.PubAck ⟨9⟩] ∧
    (logicStep memPersist (connOf []) (Packet.Publish (outPublish 1 "n" 9))).persist
      = [(recvKey 9, Packet.Publish (outPublish 1 "n" 9))] := by
  have t := logicStep_publish_inbound memPersist (connOf []) (outPublish 1 "n" 9)
  have t1 := t.2.2.1 rfl
  refine ⟨t.1, t1.1, ?_⟩
  rw [t1.2.1]
  rfl

/-- C5: when the correlation table maps the ID of a PubRec to an outgoing
Publish with QoS 2, processing `PubRec(id)` queues exactly one control
packet, `PubRel(id)`, and changes nothing else: the correlation table, the
event channel, the store and the inbox are as before. -/
theorem logicStep_pubRecv_replies {σ : Type} (P : PersistMethod σ) (c : ClientConn σ)
    (id : PacketID) (originPub : PublishPacket)
    (h : c.idGen.getExtra id = some (Packet.Publish originPub))
    (hq : originPub.Qos = 2) :
    (logicStep P c (Packet.PubRecv ⟨id⟩)).logicSendC
      = c.logicSendC ++ [Packet.PubRel ⟨id⟩] ∧
    (logicStep P c (Packet.PubRecv ⟨id⟩)).idGen = c.idGen ∧
    (logicStep P c (Packet.PubRecv ⟨id⟩)).msgC = c.msgC ∧
    (logicStep P c (Packet.PubRecv ⟨id⟩)).persist = c.persist ∧
    (logicStep P c (Packet.PubRecv ⟨id⟩)).recvC = c.recvC := by
  have hstep : logicStep P c (Packet.PubRecv ⟨id⟩) = c.send (Packet.PubRel ⟨id⟩) := by
    simp only [logicStep, h, hq, Qos2]
    rfl
  rw [hstep]
  exact ⟨rfl, rfl, rfl, rfl, rfl⟩

/-- C5 at a concrete input: ID 7 maps to a QoS-2 publish on topic `x`. -/
theorem logicStep_pubRecv_replies_witness :
    (connOf [(7, Packet.Publish (outPublish 2 "x" 7))]).idGen.getExtra 7
      = some (Packet.Publish (outPublish 2 "x" 7)) ∧
    (outPublish 2 "x" 7).Qos = 2 ∧
    (logicStep memPersist (connOf [(7, Packet.Publish (outPublish 2 "x" 7))])
      (Packet.PubRecv ⟨7⟩)).logicSendC = [Packet.PubRel ⟨7⟩] ∧
    (logicStep memPersist (connOf [(7, Packet.Publish (outPublish 2 "x" 7))])
      (Packet.PubRecv ⟨7⟩)).idGen = [(7, Packet.Publish (outPublish 2 "x" 7))] :=
  have t := logicStep_pubRecv_replies memPersist
    (connOf [(7, Packet.Publish (outPublish 2 "x" 7))]) 7 (outPublish 2 "x" 7) rfl rfl
  ⟨rfl, rfl, t.1, t.2.1⟩

/-- C6, the code at a failing input: from an empty correlation table the
dispatcher receives a QoS-2 `Publish(id=5)` and then the broker's
`PubRel(5)`. The publish is answered by `PubRec(5)` and stored, but the
PubRel finds no entry for ID 5 among the outgoing requests, so no
`PubComp(5)` is queued and the recv-entry is not written again: the PubRel
step changes nothing at all. -/
theorem logic_pubRel_inbound_unanswered :
    (logic memPersist (connOf [])
      [Packet.Publish (outPublish 2 "x" 5), Packet.PubRel ⟨5⟩]).logicSendC
      = [Packet.PubRecv ⟨5⟩] ∧
    logic memPersist (connOf []) [Packet.Publish (outPublish 2 "x" 5), Packet.PubRel ⟨5⟩]
      = logic memPersist (connOf []) [Packet.Publish (outPublish 2 "x" 5)] ∧
    (logicStep memPersist (connOf []) (Packet.PubRel ⟨5⟩)).logicSendC = [] ∧
    (logicStep memPersist (connOf []) (Packet.PubRel ⟨5⟩)).persist = [] :=
  ⟨rfl, rfl, rfl, rfl⟩

/-- C7: for each acknowledgment kind (SubAck, UnsubAck, PubAck, PubRec,
PubRel, PubComp), when the ID of the packet has no entry in the correlation
table, processing the packet returns the state unchanged: same correlation
table, same store, no event, no inbox delivery and no queued packet. -/
theorem logicStep_stale_ack_noop {σ : Type} (P : PersistMethod σ) (c : ClientConn σ)
    (id : PacketID) (codes : List QosLevel) (h : c.idGen.getExtra id = none) :
    logicStep P c (Packet.SubAck ⟨id, codes⟩) = c ∧
    logicStep P c (Packet.UnSubAck ⟨id⟩) = c ∧
    logicStep P c (Packet.PubAck ⟨id⟩) = c ∧
    logicStep P c (Packet.PubRecv ⟨id⟩) = c ∧
    logicStep P c (Packet.PubRel ⟨id⟩) = c ∧
    logicStep P c (Packet.PubComp ⟨id⟩) = c := by
  refine ⟨?_, ?_, ?_, ?_, ?_, ?_⟩ <;> simp only [logicStep, h]

/-- C7 at a concrete input: ID 4 is unknown to a table that holds ID 3. -/
theorem logicStep_stale_ack_noop_witness :
    (connOf [(3, Packet.Publish (outPublish 1 "t" 3))]).idGen.getExtra 4 = none ∧
    logicStep memPersist (connOf [(3, Packet.Publish (outPublish 1 "t" 3))])
      (Packet.PubAck ⟨4⟩) = connOf [(3, Packet.Publish (outPublish 1 "t" 3))] ∧
    logicStep memPersist (connOf [(3, Packet.Publish (outPublish 1 "t" 3))])
      (Packet.PubComp ⟨4⟩) = connOf [(3, Packet.Publish (outPublish 1 "t" 3))] :=
  have t := logicStep_stale_ack_noop memPersist
    (connOf [(3, Packet.Publish (outPublish 1 "t" 3))]) 4 [] rfl
  ⟨rfl, t.2.2.1, t.2.2.2.2.2⟩

/-! ## Persistence failures -/

theorem confirmations_append (xs ys : List Message) :
    confirmations (xs ++ ys) = confirmations xs ++ confirmations ys := by
  simp [confirmations]

theorem confirmations_persistMsgs (r : Option Error) : confirmations (persistMsgs r) = [] := by
  cases r <;> rfl

theorem sameProgress_send {σ τ : Type} (a : ClientConn σ) (b : ClientConn τ)
    (h : SameProgress a b) (pkt : Packet) : SameProgress (a.send pkt) (b.send pkt) := by
  obtain ⟨h1, h2, h3, h4, h5, h6⟩ := h
  exact ⟨h1, by simp [ClientConn.send, h2], h3, h4, h5, h6⟩

theorem sameProgress_emit {σ τ : Type} (a : ClientConn σ) (b : ClientConn τ)
    (h : SameProgress a b) (m : Message) : SameProgress (a.emit m) (b.emit m) := by
  obtain ⟨h1, h2, h3, h4, h5, h6⟩ := h
  exact ⟨h1, h2, h3, by simp [ClientConn.emit, confirmations_append, h4], h5, h6⟩

theorem sameProgress_free {σ τ : Type} (a : ClientConn σ) (b : ClientConn τ)
    (h : SameProgress a b) (id : PacketID) :
    SameProgress { a with idGen := a.idGen.free id } { b with idGen := b.idGen.free id } := by
  obtain ⟨h1, h2, h3, h4, h5, h6⟩ := h
  exact ⟨by simp [h1], h2, h3, h4, h5, h6⟩

theorem sameProgress_recv {σ τ : Type} (a : ClientConn σ) (b : ClientConn τ)
    (h : SameProgress a b) (p : PublishPacket) :
    SameProgress { a with recvC := a.recvC ++ [p] } { b with recvC := b.recvC ++ [p] } := by
  obtain ⟨h1, h2, h3, h4, h5, h6⟩ := h
  exact ⟨h1, h2, by simp [h3], h4, h5, h6⟩

theorem sameProgress_wire {σ τ : Type} (a : ClientConn σ) (b : ClientConn τ)
    (h : SameProgress a b) (p : Packet) :
    SameProgress { a with wire := a.wire ++ [p] } { b with wire := b.wire ++ [p] } := by
  obtain ⟨h1, h2, h3, h4, h5, h6⟩ := h
  exact ⟨h1, h2, h3, h4, by simp [h5], h6⟩

theorem sameProgress_close {σ τ : Type} (a : ClientConn σ) (b : ClientConn τ)
    (h : SameProgress a b) :
    SameProgress { a with closed := a.closed + 1 } { b with closed := b.closed + 1 } := by
  obtain ⟨h1, h2, h3, h4, h5, h6⟩ := h
  exact ⟨h1, h2, h3, h4, h5, by simp [h6]⟩

theorem sameProgress_persistDelete {σ τ : Type} (P : PersistMethod σ) (Q : PersistMethod τ)
    (a : ClientConn σ) (b : ClientConn τ) (h : SameProgress a b) (k : PersistKey) :
    SameProgress (a.persistDelete P k) (b.persistDelete Q k) := by
  obtain ⟨h1, h2, h3, h4, h5, h6⟩ := h
  rw [persistDelete_eq, persistDelete_eq]
  exact ⟨h1, h2, h3, by simp [confirmations_append, confirmations_persistMsgs, h4], h5, h6⟩

theorem sameProgress_persistStore {σ τ : Type} (P : PersistMethod σ) (Q : PersistMethod τ)
    (a : ClientConn σ) (b : ClientConn τ) (h : SameProgress a b) (k : PersistKey)
    (pkt : Packet) :
    SameProgress (a.persistStore P k pkt) (b.persistStore Q k pkt) := by
  obtain ⟨h1, h2, h3, h4, h5, h6⟩ := h
  rw [persistStore_eq, persistStore_eq]
  exact ⟨h1, h2, h3, by simp [confirmations_append, confirmations_persistMsgs, h4], h5, h6⟩

theorem sameProgress_logicStep {σ τ : Type} (P : PersistMethod σ) (Q : PersistMethod τ)
    (a : ClientConn σ) (b : ClientConn τ) (h : SameProgress a b) (pkt : Packet) :
    SameProgress (logicStep P a pkt) (logicStep Q b pkt) := by
  have hg : b.idGen = a.idGen := h.1.symm
  cases pkt with
  | SubAck p =>
    simp only [logicStep, hg]
    cases a.idGen.getExtra p.PacketID with
    | none => exact h
    | some o =>
      cases o <;> first
        | exact h
        | exact sameProgress_persistDelete P Q _ _
            (sameProgress_free _ _ (sameProgress_emit _ _ h _) _) _
  | UnSubAck p =>
    simp only [logicStep, hg]
    cases a.idGen.getExtra p.PacketID with
    | none => exact h
    | some o =>
      cases o <;> first
        | exact h
        | exact sameProgress_persistDelete P Q _ _
            (sameProgress_free _ _ (sameProgress_emit _ _ h _) _) _
  | Publish p =>
    simp only [logicStep]
    split_ifs
    · exact sameProgress_persistStore P Q _ _
        (sameProgress_send _ _ (sameProgress_recv _ _ h _) _) _ _
    · exact sameProgress_persistStore P Q _ _
        (sameProgress_send _ _ (sameProgress_recv _ _ h _) _) _ _
    · exact sameProgress_recv _ _ h _
  | PubAck p =>
    simp only [logicStep, hg]
    cases a.idGen.getExtra p.PacketID with
    | none => exact h
    | some o =>
      cases o <;> first
        | exact h
        | (simp only []
           split_ifs
           · exact sameProgress_persistDelete P Q _ _
               (sameProgress_free _ _ (sameProgress_emit _ _ h _) _) _
           · exact h)
  | PubRecv p =>
    simp only [logicStep, hg]
    cases a.idGen.getExtra p.PacketID with
    | none => exact h
    | some o =>
      cases o <;> first
        | exact h
        | (simp only []
           split_ifs
           · exact sameProgress_send _ _ h _
           · exact h)
  | PubRel p =>
    simp only [logicStep, hg]
    cases a.idGen.getExtra p.PacketID with
    | none => exact h
    | some o =>
      cases o <;> first
        | exact h
        | (simp only []
           split_ifs
           · exact sameProgress_persistStore P Q _ _ (sameProgress_send _ _ h _) _ _
           · exact h)
  | PubComp p =>
    simp only [logicStep, hg]
    cases a.idGen.getExtra p.PacketID with
    | none => exact h
    | some o =>
      cases o <;> first
        | exact h
        | (simp only []
           split_ifs
           · exact sameProgress_persistDelete P Q _ _
               (sameProgress_free _ _
                 (sameProgress_emit _ _ (sameProgress_send _ _ h _) _) _) _
           · exact h)
  | _ => exact h

theorem sameProgress_logicSendStep {σ τ : Type} (P : PersistMethod σ) (Q : PersistMethod τ)
    (a : ClientConn σ) (b : ClientConn τ) (h : SameProgress a b) (pkt : Packet) :
    SameProgress (logicSendStep P a pkt) (logicSendStep Q b pkt) := by
  cases pkt with
  | PubRel p => exact sameProgress_persistStore P Q _ _ (sameProgress_wire _ _ h _) _ _
  | PubAck p => exact sameProgress_persistDelete P Q _ _ (sameProgress_wire _ _ h _) _
  | PubComp p => exact sameProgress_persistDelete P Q _ _ (sameProgress_wire _ _ h _) _
  | DisConn => exact sameProgress_close _ _ (sameProgress_wire _ _ h _)
  | _ => exact sameProgress_wire _ _ h _

theorem sameProgress_logic {σ τ : Type} (P : PersistMethod σ) (Q : PersistMethod τ)
    (pkts : List Packet) (a : ClientConn σ) (b : ClientConn τ) (h : SameProgress a b) :
    SameProgress (logic P a pkts) (logic Q b pkts) := by
  induction pkts generalizing a b with
  | nil => exact h
  | cons pkt rest ih =>
    exact ih _ _ (sameProgress_logicStep P Q a b h pkt)

theorem sameProgress_handleLogicSend {σ τ : Type} (P : PersistMethod σ) (Q : PersistMethod τ)
    (q : List (Packet × WriteResult)) (a : ClientConn σ) (b : ClientConn τ)
    (h : SameProgress a b) :
    SameProgress (handleLogicSend P q a) (handleLogicSend Q q b) := by
  induction q generalizing a b with
  | nil => exact h
  | cons x rest ih =>
    obtain ⟨pkt, r⟩ := x
    cases r with
    | ok => exact ih _ _ (sameProgress_logicSendStep P Q a b h pkt)
    | encodeErr => exact h
    | flushErr => exact h

theorem persistDelete_fail_ok {σ τ : Type} (P : PersistMethod σ) (Q : PersistMethod τ)
    (e : Error) (hPd : ∀ k st, (P.Delete k st).2 = some e)
    (hQd : ∀ k st, (Q.Delete k st).2 = none)
    (a : ClientConn σ) (b : ClientConn τ) (hm : a.msgC = b.msgC) (k : PersistKey) :
    (a.persistDelete P k).msgC = (b.persistDelete Q k).msgC ++ [newPersistMsg e] := by
  rw [persistDelete_eq, persistDelete_eq]
  simp [hPd, hQd, persistMsgs, hm]

theorem persistStore_fail_ok {σ τ : Type} (P : PersistMethod σ) (Q : PersistMethod τ)
    (e : Error) (hPs : ∀ k p st, (P.Store k p st).2 = some e)
    (hQs : ∀ k p st, (Q.Store k p st).2 = none)
    (a : ClientConn σ) (b : ClientConn τ) (hm : a.msgC = b.msgC) (k : PersistKey)
    (pkt : Packet) :
    (a.persistStore P k pkt).msgC = (b.persistStore Q k pkt).msgC ++ [newPersistMsg e] := by
  rw [persistStore_eq, persistStore_eq]
  simp [hPs, hQs, persistMsgs, hm]

theorem logicStep_fail_ok {σ τ : Type} (P : PersistMethod σ) (Q : PersistMethod τ)
    (e : Error) (hPs : ∀ k p st, (P.Store k p st).2 = some e)
    (hPd : ∀ k st, (P.Delete k st).2 = some e)
    (hQs : ∀ k p st, (Q.Store k p st).2 = none)
    (hQd : ∀ k st, (Q.Delete k st).2 = none)
    (a : ClientConn σ) (b : ClientConn τ) (hid : a.idGen = b.idGen) (hm : a.msgC = b.msgC)
    (pkt : Packet) :
    (logicStep P a pkt).msgC = (logicStep Q b pkt).msgC ++ [newPersistMsg e] ∨
    ((logicStep P a pkt).msgC = (logicStep Q b pkt).msgC ∧
      (logicStep P a pkt).persist = a.persist ∧ (logicStep Q b pkt).persist = b.persist) := by
  have hg : b.idGen = a.idGen := hid.symm
  have hemit : ∀ m, (a.emit m).msgC = (b.emit m).msgC := fun m => by simp [ClientConn.emit, hm]
  cases pkt with
  | SubAck p =>
    simp only [logicStep, hg]
    cases a.idGen.getExtra p.PacketID with
    | none => exact Or.inr ⟨hm, rfl, rfl⟩
    | some o =>
      cases o <;> first
        | exact Or.inr ⟨hm, rfl, rfl⟩
        | (simp only []
           refine Or.inl (persistDelete_fail_ok P Q e hPd hQd _ _ ?_ _)
           exact hemit _)
  | UnSubAck p =>
    simp only [logicStep, hg]
    cases a.idGen.getExtra p.PacketID with
    | none => exact Or.inr ⟨hm, rfl, rfl⟩
    | some o =>
      cases o <;> first
        | exact Or.inr ⟨hm, rfl, rfl⟩
        | (simp only []
           refine Or.inl (persistDelete_fail_ok P Q e hPd hQd _ _ ?_ _)
           exact hemit _)
  | Publish p =>
    simp only [logicStep]
    split_ifs
    · exact Or.inl (persistStore_fail_ok P Q e hPs hQs _ _ (by exact hm) _ _)
    · exact Or.inl (persistStore_fail_ok P Q e hPs hQs _ _ (by exact hm) _ _)
    · exact Or.inr ⟨hm, rfl, rfl⟩
  | PubAck p =>
    simp only [logicStep, hg]
    cases a.idGen.getExtra p.PacketID with
    | none => exact Or.inr ⟨hm, rfl, rfl⟩
    | some o =>
      cases o <;> first
        | exact Or.inr ⟨hm, rfl, rfl⟩
        | (simp only []
           split_ifs
           · refine Or.inl (persistDelete_fail_ok P Q e hPd hQd _ _ ?_ _)
             exact hemit _
           · exact Or.inr ⟨hm, rfl, rfl⟩)
  | PubRecv p =>
    simp only [logicStep, hg]
    cases a.idGen.getExtra p.PacketID with
    | none => exact Or.inr ⟨hm, rfl, rfl⟩
    | some o =>
      cases o <;> first
        | exact Or.inr ⟨hm, rfl, rfl⟩
        | (simp only []
           split_ifs
           · exact Or.inr ⟨hm, rfl, rfl⟩
           · exact Or.inr ⟨hm, rfl, rfl⟩)
  | PubRel p =>
    simp only [logicStep, hg]
    cases a.idGen.getExtra p.PacketID with
    | none => exact Or.inr ⟨hm, rfl, rfl⟩
    | some o =>
      cases o <;> first
        | exact Or.inr ⟨hm, rfl, rfl⟩
        | (simp only []
           split_ifs
           · exact Or.inl (persistStore_fail_ok P Q e hPs hQs _ _ (by exact hm) _ _)
           · exact Or.inr ⟨hm, rfl, rfl⟩)
  | PubComp p =>
    simp only [logicStep, hg]
    cases a.idGen.getExtra p.PacketID with
    | none => exact Or.inr ⟨hm, rfl, rfl⟩
    | some o =>
      cases o <;> first
        | exact Or.inr ⟨hm, rfl, rfl⟩
        | (simp only []
           split_ifs
           · refine Or.inl (persistDelete_fail_ok P Q e hPd hQd _ _ ?_ _)
             simp [ClientConn.emit, ClientConn.send, hm]
           · exact Or.inr ⟨hm, rfl, rfl⟩)
  | _ => exact Or.inr ⟨hm, rfl, rfl⟩

theorem logicSendStep_fail_ok {σ τ : Type} (P : PersistMethod σ) (Q : PersistMethod τ)
    (e : Error) (hPs : ∀ k p st, (P.Store k p st).2 = some e)
    (hPd : ∀ k st, (P.Delete k st).2 = some e)
    (hQs : ∀ k p st, (Q.Store k p st).2 = none)
    (hQd : ∀ k st, (Q.Delete k st).2 = none)
    (a : ClientConn σ) (b : ClientConn τ) (hm : a.msgC = b.msgC) (pkt : Packet) :
    (logicSendStep P a pkt).msgC = (logicSendStep Q b pkt).msgC ++ [newPersistMsg e] ∨
    ((logicSendStep P a pkt).msgC = (logicSendStep Q b pkt).msgC ∧
      (logicSendStep P a pkt).persist = a.persist ∧
      (logicSendStep Q b pkt).persist = b.persist) := by
  cases pkt with
  | PubRel p => exact Or.inl (persistStore_fail_ok P Q e hPs hQs _ _ (by exact hm) _ _)
  | PubAck p => exact Or.inl (persistDelete_fail_ok P Q e hPd hQd _ _ (by exact hm) _)
  | PubComp p => exact Or.inl (persistDelete_fail_ok P Q e hPd hQd _ _ (by exact hm) _)
  | _ => exact Or.inr ⟨hm, rfl, rfl⟩

/-- C8: persistence failures are non-fatal. Take an adapter `P` whose every
Store and Delete call fails with `e`, an adapter `Q` whose calls all return
nil, and two states that agree on everything but the store. Then for every
packet the dispatcher step under `P` and under `Q` produce the same
correlation table, queued control packets, inbox deliveries and
confirmation events, and the events under `P` are those under `Q` followed
by exactly one PersistenceError carrying `e` (or the same events, when the
step leaves both stores untouched); likewise for one step of the control
writer; and on every sequence of packets the dispatcher, and on every queue
the control writer, runs to the end under both adapters with the same
progress. -/
theorem persist_failure_nonfatal {σ τ : Type} (P : PersistMethod σ) (Q : PersistMethod τ)
    (e : Error) (hPs : ∀ k p st, (P.Store k p st).2 = some e)
    (hPd : ∀ k st, (P.Delete k st).2 = some e)
    (hQs : ∀ k p st, (Q.Store k p st).2 = none)
    (hQd : ∀ k st, (Q.Delete k st).2 = none)
    (a : ClientConn σ) (b : ClientConn τ)
    (hid : a.idGen = b.idGen) (hm : a.msgC = b.msgC) (hs : a.logicSendC = b.logicSendC)
    (hr : a.recvC = b.recvC) (hw : a.wire = b.wire) (hc : a.closed = b.closed) :
    (∀ pkt,
      (logicStep P a pkt).idGen = (logicStep Q b pkt).idGen ∧
      (logicStep P a pkt).logicSendC = (logicStep Q b pkt).logicSendC ∧
      (logicStep P a pkt).recvC = (logicStep Q b pkt).recvC ∧
      confirmations (logicStep P a pkt).msgC = confirmations (logicStep Q b pkt).msgC ∧
      ((logicStep P a pkt).msgC = (logicStep Q b pkt).msgC ++ [newPersistMsg e] ∨
        ((logicStep P a pkt).msgC = (logicStep Q b pkt).msgC ∧
          (logicStep P a pkt).persist = a.persist ∧
          (logicStep Q b pkt).persist = b.persist))) ∧
    (∀ pkt,
      SameProgress (logicSendStep P a pkt) (logicSendStep Q b pkt) ∧
      ((logicSendStep P a pkt).msgC = (logicSendStep Q b pkt).msgC ++ [newPersistMsg e] ∨
        ((logicSendStep P a pkt).msgC = (logicSendStep Q b pkt).msgC ∧
          (logicSendStep P a pkt).persist = a.persist ∧
          (logicSendStep Q b pkt).persist = b.persist))) ∧
    (∀ pkts, SameProgress (logic P a pkts) (logic Q b pkts)) ∧
    (∀ q, SameProgress (handleLogicSend P q a) (handleLogicSend Q q b)) := by
  have hab : SameProgress a b := ⟨hid, hs, hr, by rw [hm], hw, hc⟩
  refine ⟨fun pkt => ?_, fun pkt => ?_, fun pkts => sameProgress_logic P Q pkts a b hab,
    fun q => sameProgress_handleLogicSend P Q q a b hab⟩
  · obtain ⟨h1, h2, h3, h4, _, _⟩ := sameProgress_logicStep P Q a b hab pkt
    exact ⟨h1, h2, h3, h4, logicStep_fail_ok P Q e hPs hPd hQs hQd a b hid hm pkt⟩
  · exact ⟨sameProgress_logicSendStep P Q a b hab pkt,
      logicSendStep_fail_ok P Q e hPs hPd hQs hQd a b hm pkt⟩

/-- C8 at a concrete input: with a store that always fails with
`disk full`, the dispatcher processes `PubAck(3)` and then an inbound QoS-1
publish exactly as with a store that never fails, PersistenceError events
apart. -/
theorem persist_failure_nonfatal_witness :
    SameProgress
      (logic (failPersist "disk full") (connOf [(3, Packet.Publish (outPublish 1 "t" 3))])
        [Packet.PubAck ⟨3⟩, Packet.Publish (outPublish 1 "n" 9)])
      (logic memPersist (connOf [(3, Packet.Publish (outPublish 1 "t" 3))])
        [Packet.PubAck ⟨3⟩, Packet.Publish (outPublish 1 "n" 9)]) ∧
    (logic (failPersist "disk full") (connOf [(3, Packet.Publish (outPublish 1 "t" 3))])
        [Packet.PubAck ⟨3⟩, Packet.Publish (outPublish 1 "n" 9)]).msgC
      = [newPubMsg "t" none, newPersistMsg "disk full", newPersistMsg "disk full"] ∧
    (logic memPersist (connOf [(3, Packet.Publish (outPublish 1 "t" 3))])
        [Packet.PubAck ⟨3⟩, Packet.Publish (outPublish 1 "n" 9)]).msgC
      = [newPubMsg "t" none] :=
  ⟨(persist_failure_nonfatal (failPersist "disk full") memPersist "disk full"
      (fun _ _ _ => rfl) (fun _ _ => rfl) (fun _ _ _ => rfl) (fun _ _ => rfl)
      (connOf [(3, Packet.Publish (outPublish 1 "t" 3))])
      (connOf [(3, Packet.Publish (outPublish 1 "t" 3))]) rfl rfl rfl rfl rfl rfl).2.2.1
      [Packet.PubAck ⟨3⟩, Packet.Publish (outPublish 1 "n" 9)],
    rfl, rfl⟩

/-! ## The QoS-1 publish lifecycle -/

/-- C9 fails as stated: a QoS-1 publish on topic `t` with ID 3 is written by
the application writer and then acknowledged by `PubAck(3)`. The writer has
already emitted PublishConfirmed(t, nil) before the PubAck is processed,
and the dispatcher emits it again: two events in the whole run, not one. -/
theorem qos1_lifecycle_single_confirm_fails :
    (handleClientSend [(Packet.Publish (outPublish 1 "t" 3), WriteResult.ok)]
      (connOf [(3, Packet.Publish (outPublish 1 "t" 3))])).msgC = [newPubMsg "t" none] ∧
    (logicStep memPersist
      (handleClientSend [(Packet.Publish (outPublish 1 "t" 3), WriteResult.ok)]
        (connOf [(3, Packet.Publish (outPublish 1 "t" 3))]))
      (Packet.PubAck ⟨3⟩)).msgC = [newPubMsg "t" none, newPubMsg "t" none] ∧
    ¬ ((logicStep memPersist
        (handleClientSend [(Packet.Publish (outPublish 1 "t" 3), WriteResult.ok)]
          (connOf [(3, Packet.Publish (outPublish 1 "t" 3))]))
        (Packet.PubAck ⟨3⟩)).msgC.count (newPubMsg "t" none) = 1 ∧
      (handleClientSend [(Packet.Publish (outPublish 1 "t" 3), WriteResult.ok)]
        (connOf [(3, Packet.Publish (outPublish 1 "t" 3))])).msgC.count
          (newPubMsg "t" none) = 0) := by
  refine ⟨rfl, rfl, ?_⟩
  intro h
  exact absurd h.2 (by decide)

theorem handleClientSend_publish_ok {σ : Type} (c : ClientConn σ) (p : PublishPacket) :
    handleClientSend [(Packet.Publish p, WriteResult.ok)] c
      = ({ c with wire := c.wire ++ [Packet.Publish p] }).emit (newPubMsg p.TopicName none) :=
  rfl

theorem count_pub_persistMsgs (t : String) (r : Option Error) :
    ([newPubMsg t none, newPubMsg t none] ++ persistMsgs r).count (newPubMsg t none) = 2 := by
  cases r with
  | none => simp [persistMsgs]
  | some err => simp [persistMsgs, newPersistMsg, newPubMsg, List.count_cons]

/-- C9 as amended: for every outgoing QoS-1 Publish `p` registered in the
correlation table under its ID, the application writer emits
PublishConfirmed(p.topic, nil) as soon as `p` is flushed, before any PubAck
is processed, and the dispatcher emits it once more when it processes the
matching PubAck: the run emits exactly two such events, followed only by
the report of the Delete call. -/
theorem qos1_lifecycle_two_confirms {σ : Type} (P : PersistMethod σ) (c : ClientConn σ)
    (p : PublishPacket)
    (h : c.idGen.getExtra p.PacketID = some (Packet.Publish p)) (hq : p.Qos = 1) :
    (handleClientSend [(Packet.Publish p, WriteResult.ok)] c).msgC
      = c.msgC ++ [newPubMsg p.TopicName none] ∧
    (logicStep P (handleClientSend [(Packet.Publish p, WriteResult.ok)] c)
        (Packet.PubAck ⟨p.PacketID⟩)).msgC
      = c.msgC ++ ([newPubMsg p.TopicName none, newPubMsg p.TopicName none]
          ++ persistMsgs (P.Delete (sendKey p.PacketID) c.persist).2) ∧
    ((logicStep P (handleClientSend [(Packet.Publish p, WriteResult.ok)] c)
        (Packet.PubAck ⟨p.PacketID⟩)).msgC.drop c.msgC.length).count
      (newPubMsg p.TopicName none) = 2 := by
  have hstep : (logicStep P (handleClientSend [(Packet.Publish p, WriteResult.ok)] c)
        (Packet.PubAck ⟨p.PacketID⟩)).msgC
      = c.msgC ++ ([newPubMsg p.TopicName none, newPubMsg p.TopicName none]
          ++ persistMsgs (P.Delete (sendKey p.PacketID) c.persist).2) := by
    rw [handleClientSend_publish_ok]
    have h2 : (({ c with wire := c.wire ++ [Packet.Publish p] }).emit
        (newPubMsg p.TopicName none)).idGen.getExtra p.PacketID
          = some (Packet.Publish p) := h
    simp only [logicStep, h2, hq, Qos1]
    simp only [if_true]
    rw [persistDelete_eq]
    simp [ClientConn.emit]
  refine ⟨rfl, hstep, ?_⟩
  rw [hstep, List.drop_left]
  exact count_pub_persistMsgs _ _

/-- C9 as amended, at a concrete input: topic `t`, ID 3. -/
theorem qos1_lifecycle_two_confirms_witness :
    (connOf [(3, Packet.Publish (outPublish 1 "t" 3))]).idGen.getExtra
        (outPublish 1 "t" 3).PacketID = some (Packet.Publish (outPublish 1 "t" 3)) ∧
    (outPublish 1 "t" 3).Qos = 1 ∧
    ((logicStep memPersist
        (handleClientSend [(Packet.Publish (outPublish 1 "t" 3), WriteResult.ok)]
          (connOf [(3, Packet.Publish (outPublish 1 "t" 3))]))
        (Packet.PubAck ⟨3⟩)).msgC.drop 0).count (newPubMsg "t" none) = 2 :=
  ⟨rfl, rfl, (qos1_lifecycle_two_confirms memPersist
    (connOf [(3, Packet.Publish (outPublish 1 "t" 3))]) (outPublish 1 "t" 3) rfl rfl).2.2⟩

/-! ## PubRel causality -/

/-- C10, the code at a failing input: with ID 7 mapped to an outgoing QoS-2
publish, the step that processes `PubComp(7)` queues `PubRel(7)`; over the
completed exchange `PubRec(7), PubComp(7)` the dispatcher queues two
`PubRel(7)`, the second one in the PubComp step, after which the ID is
free. -/
theorem logicStep_pubComp_queues_pubRel :
    (logicStep memPersist (connOf [(7, Packet.Publish (outPublish 2 "x" 7))])
      (Packet.PubComp ⟨7⟩)).logicSendC = [Packet.PubRel ⟨7⟩] ∧
    (logic memPersist (connOf [(7, Packet.Publish (outPublish 2 "x" 7))])
      [Packet.PubRecv ⟨7⟩, Packet.PubComp ⟨7⟩]).logicSendC
      = [Packet.PubRel ⟨7⟩, Packet.PubRel ⟨7⟩] ∧
    (logic memPersist (connOf [(7, Packet.Publish (outPublish 2 "x" 7))])
      [Packet.PubRecv ⟨7⟩, Packet.PubComp ⟨7⟩]).idGen = [] :=
  ⟨rfl, rfl, rfl⟩

/-! ## Send-persistence entries and the control writer -/

/-- C11, the code at a failing input: ID 3 is an outstanding outgoing QoS-1
publish with its send-entry in the store. The broker delivers an inbound
QoS-1 publish that carries the same numeric ID 3; the dispatcher queues
`PubAck(3)` and stores the recv-entry, and the control writer, after
sending that PubAck, deletes the send-entry of ID 3. The ID is still in
the correlation table, no acknowledgment of the outgoing publish was
processed, and the recv-entry is the only entry left. -/
theorem sendQueued_pubAck_deletes_sendEntry :
    (logicStep memPersist pendingQos1 (Packet.Publish (outPublish 1 "n" 3))).logicSendC
      = [Packet.PubAck ⟨3⟩] ∧
    (logicStep memPersist pendingQos1 (Packet.Publish (outPublish 1 "n" 3))).persist
      = [(recvKey 3, Packet.Publish (outPublish 1 "n" 3)),
         (sendKey 3, Packet.Publish (outPublish 1 "t" 3))] ∧
    (sendQueued memPersist
      (logicStep memPersist pendingQos1 (Packet.Publish (outPublish 1 "n" 3)))).persist
      = [(recvKey 3, Packet.Publish (outPublish 1 "n" 3))] ∧
    (sendQueued memPersist
      (logicStep memPersist pendingQos1 (Packet.Publish (outPublish 1 "n" 3)))).idGen.getExtra 3
      = some (Packet.Publish (outPublish 1 "t" 3)) ∧
    (logicSendStep memPersist pendingQos1 (Packet.PubComp ⟨3⟩)).persist = [] :=
  ⟨rfl, rfl, rfl, rfl, rfl⟩

/-- C12, the code on Scenario C: after `PubRec(7)` the control writer sends
`PubRel(7)` and persists the send-entry of ID 7; the dispatcher then
processes `PubComp(7)`, which deletes the send-entry, frees ID 7 and emits
one PublishConfirmed(x, nil), but also queues a second `PubRel(7)`; when
the control writer sends it, the send-entry of ID 7 is stored again, so at
the end the store still holds a send-entry for ID 7. -/
theorem scenarioC_sendEntry_restored :
    (sendQueued memPersist (logicStep memPersist scenarioC (Packet.PubRecv ⟨7⟩))).wire
      = [Packet.PubRel ⟨7⟩] ∧
    (sendQueued memPersist (logicStep memPersist scenarioC (Packet.PubRecv ⟨7⟩))).persist
      = [(sendKey 7, Packet.PubRel ⟨7⟩)] ∧
    (logicStep memPersist
      (sendQueued memPersist (logicStep memPersist scenarioC (Packet.PubRecv ⟨7⟩)))
      (Packet.PubComp ⟨7⟩)).persist = [] ∧
    (sendQueued memPersist (logicStep memPersist
      (sendQueued memPersist (logicStep memPersist scenarioC (Packet.PubRecv ⟨7⟩)))
      (Packet.PubComp ⟨7⟩))).persist = [(sendKey 7, Packet.PubRel ⟨7⟩)] ∧
    (sendQueued memPersist (logicStep memPersist
      (sendQueued memPersist (logicStep memPersist scenarioC (Packet.PubRecv ⟨7⟩)))
      (Packet.PubComp ⟨7⟩))).wire = [Packet.PubRel ⟨7⟩, Packet.PubRel ⟨7⟩] ∧
    (sendQueued memPersist (logicStep memPersist
      (sendQueued memPersist (logicStep memPersist scenarioC (Packet.PubRecv ⟨7⟩)))
      (Packet.PubComp ⟨7⟩))).idGen.getExtra 7 = none ∧
    (sendQueued memPersist (logicStep memPersist
      (sendQueued memPersist (logicStep memPersist scenarioC (Packet.PubRecv ⟨7⟩)))
      (Packet.PubComp ⟨7⟩))).msgC = [newPubMsg "x" none] :=
  ⟨rfl, rfl, rfl, rfl, rfl, rfl, rfl⟩

/-- C14: after a control packet is encoded and flushed, the control writer
calls Store exactly when the packet is a PubRel, and then once, with the
send-key of its packet ID and the PubRel itself; after a PubAck or any
other packet that is not a PubRel, none of the calls it makes is a Store,
so no entry is created. The calls are read off an adapter that records
them, whatever it answers. -/
theorem logicSendStep_store_iff_pubRel (r : PersistCall → Option Error)
    (c : ClientConn (List PersistCall)) (pkt : Packet) :
    (∀ p, pkt = Packet.PubRel p →
      (logicSendStep (logPersist r) c pkt).persist
        = c.persist ++ [PersistCall.store (sendKey p.PacketID) (Packet.PubRel p)]) ∧
    ((∀ p, pkt ≠ Packet.PubRel p) →
      ∃ calls, (logicSendStep (logPersist r) c pkt).persist = c.persist ++ calls ∧
        ∀ k v, PersistCall.store k v ∉ calls) := by
  constructor
  · intro p hp
    subst hp
    simp only [logicSendStep]
    rw [persistStore_eq]
    rfl
  · intro hne
    cases pkt with
    | PubRel p => exact absurd rfl (hne p)
    | PubAck p =>
      refine ⟨[PersistCall.delete (sendKey p.PacketID)], ?_, ?_⟩
      · simp only [logicSendStep]
        rw [persistDelete_eq]
        rfl
      · intro k v hmem
        simp at hmem
    | PubComp p =>
      refine ⟨[PersistCall.delete (sendKey p.PacketID)], ?_, ?_⟩
      · simp only [logicSendStep]
        rw [persistDelete_eq]
        rfl
      · intro k v hmem
        simp at hmem
    | _ => exact ⟨[], by simp [logicSendStep], by simp⟩

/-- C14 at concrete inputs: sending `PubRel(7)` records one Store under the
send-key of 7; sending `PubAck(3)` records no Store. -/
theorem logicSendStep_store_iff_pubRel_witness :
    (logicSendStep (logPersist (fun _ => none))
      { idGen := [], persist := [], msgC := [], recvC := [], logicSendC := [],
        wire := [], closed := 0 } (Packet.PubRel ⟨7⟩)).persist
      = [PersistCall.store (sendKey 7) (Packet.PubRel ⟨7⟩)] ∧
    (∃ calls, (logicSendStep (logPersist (fun _ => none))
      { idGen := [], persist := [], msgC := [], recvC := [], logicSendC := [],
        wire := [], closed := 0 } (Packet.PubAck ⟨3⟩)).persist = [] ++ calls ∧
        ∀ k v, PersistCall.store k v ∉ calls) :=
  ⟨(logicSendStep_store_iff_pubRel (fun _ => none)
      { idGen := [], persist := [], msgC := [], recvC := [], logicSendC := [],
        wire := [], closed := 0 } (Packet.PubRel ⟨7⟩)).1 ⟨7⟩ rfl,
   (logicSendStep_store_iff_pubRel (fun _ => none)
      { idGen := [], persist := [], msgC := [], recvC := [], logicSendC := [],
        wire := [], closed := 0 } (Packet.PubAck ⟨3⟩)).2 (fun p h => by cases h)⟩

/-- C15, the code at a failing input: the queue holds Disconnect followed
by `PubAck(3)`. The writer flushes the Disconnect and closes the
transport, but the `break` of that case only leaves the `switch`: the
writer takes `PubAck(3)` from the queue and encodes it, also when its flush
then fails; when the flush succeeds the PubAck is written and Delete is
called for it. Two Disconnects in the queue close the transport twice. -/
theorem handleLogicSend_continues_after_disconnect :
    encodeCalls [(Packet.DisConn, WriteResult.ok), (Packet.PubAck ⟨3⟩, WriteResult.flushErr)]
      = [Packet.DisConn, Packet.PubAck ⟨3⟩] ∧
    (handleLogicSend memPersist
      [(Packet.DisConn, WriteResult.ok), (Packet.PubAck ⟨3⟩, WriteResult.ok)]
      pendingQos1).wire = [Packet.DisConn, Packet.PubAck ⟨3⟩] ∧
    (handleLogicSend memPersist
      [(Packet.DisConn, WriteResult.ok), (Packet.PubAck ⟨3⟩, WriteResult.ok)]
      pendingQos1).closed = 1 ∧
    (handleLogicSend memPersist
      [(Packet.DisConn, WriteResult.ok), (Packet.PubAck ⟨3⟩, WriteResult.ok)]
      pendingQos1).persist = [] ∧
    (handleLogicSend memPersist [(Packet.DisConn, WriteResult.ok)] pendingQos1).persist
      = pendingQos1.persist ∧
    (handleLogicSend memPersist
      [(Packet.DisConn, WriteResult.ok), (Packet.DisConn, WriteResult.ok)]
      pendingQos1).closed = 2 :=
  ⟨rfl, rfl, rfl, rfl, rfl, rfl⟩

/-! ## Writer failure -/

theorem clientSendStep_wire {σ : Type} (c : ClientConn σ) (pkt : Packet) :
    (clientSendStep c pkt).wire = c.wire ++ [pkt] := by
  cases pkt <;> rfl

theorem logicSendStep_wire {σ : Type} (P : PersistMethod σ) (c : ClientConn σ)
    (pkt : Packet) : (logicSendStep P c pkt).wire = c.wire ++ [pkt] := by
  cases pkt <;> simp only [logicSendStep, persistStore_eq, persistDelete_eq]

theorem handleClientSend_ok_append {σ : Type} (pre : List Packet)
    (rest : List (Packet × WriteResult)) (c : ClientConn σ) :
    handleClientSend (pre.map (fun p => (p, WriteResult.ok)) ++ rest) c
      = handleClientSend rest (handleClientSend (pre.map (fun p => (p, WriteResult.ok))) c) := by
  induction pre generalizing c with
  | nil => rfl
  | cons p pre ih => exact ih (clientSendStep c p)

theorem handleLogicSend_ok_append {σ : Type} (P : PersistMethod σ) (pre : List Packet)
    (rest : List (Packet × WriteResult)) (c : ClientConn σ) :
    handleLogicSend P (pre.map (fun p => (p, WriteResult.ok)) ++ rest) c
      = handleLogicSend P rest
          (handleLogicSend P (pre.map (fun p => (p, WriteResult.ok))) c) := by
  induction pre generalizing c with
  | nil => rfl
  | cons p pre ih => exact ih (logicSendStep P c p)

theorem handleClientSend_ok_wire {σ : Type} (pre : List Packet) (c : ClientConn σ) :
    (handleClientSend (pre.map (fun p => (p, WriteResult.ok))) c).wire = c.wire ++ pre := by
  induction pre generalizing c with
  | nil => simp [handleClientSend]
  | cons p pre ih =>
    show (handleClientSend (pre.map (fun p => (p, WriteResult.ok))) (clientSendStep c p)).wire
      = c.wire ++ p :: pre
    rw [ih, clientSendStep_wire]
    simp

theorem handleLogicSend_ok_wire {σ : Type} (P : PersistMethod σ) (pre : List Packet)
    (c : ClientConn σ) :
    (handleLogicSend P (pre.map (fun p => (p, WriteResult.ok))) c).wire = c.wire ++ pre := by
  induction pre generalizing c with
  | nil => simp [handleLogicSend]
  | cons p pre ih =>
    show (handleLogicSend P (pre.map (fun p => (p, WriteResult.ok)))
      (logicSendStep P c p)).wire = c.wire ++ p :: pre
    rw [ih, logicSendStep_wire]
    simp

theorem handleClientSend_fail_head {σ : Type} (pkt : Packet) (r : WriteResult)
    (post : List (Packet × WriteResult)) (c : ClientConn σ) (hr : r ≠ WriteResult.ok) :
    handleClientSend ((pkt, r) :: post) c = c := by
  cases r with
  | ok => exact absurd rfl hr
  | encodeErr => rfl
  | flushErr => rfl

theorem handleLogicSend_fail_head {σ : Type} (P : PersistMethod σ) (pkt : Packet)
    (r : WriteResult) (post : List (Packet × WriteResult)) (c : ClientConn σ)
    (hr : r ≠ WriteResult.ok) :
    handleLogicSend P ((pkt, r) :: post) c = c := by
  cases r with
  | ok => exact absurd rfl hr
  | encodeErr => rfl
  | flushErr => rfl

theorem encodeCalls_ok_append (pre : List Packet) (rest : List (Packet × WriteResult)) :
    encodeCalls (pre.map (fun p => (p, WriteResult.ok)) ++ rest) = pre ++ encodeCalls rest := by
  induction pre with
  | nil => rfl
  | cons p pre ih =>
    show p :: encodeCalls (pre.map (fun p => (p, WriteResult.ok)) ++ rest) = _
    rw [ih]
    rfl

theorem encodeCalls_fail_head (pkt : Packet) (r : WriteResult)
    (post : List (Packet × WriteResult)) (hr : r ≠ WriteResult.ok) :
    encodeCalls ((pkt, r) :: post) = [pkt] := by
  cases r with
  | ok => exact absurd rfl hr
  | encodeErr => rfl
  | flushErr => rfl

/-- C16: for both writers and every queue in which the packets of `pre` are
sent successfully and the encode or the flush of the next packet `pkt`
fails, the writer ends in the state reached after `pre` alone, so no event
is emitted and no persistence call is made for `pkt` or for any packet of
`post`; the packets on the wire are those of `pre`; and the packets passed
to the encoder are those of `pre` followed by `pkt`, none of `post`. -/
theorem writer_failure_terminal {σ : Type} (P : PersistMethod σ) (c : ClientConn σ)
    (pre : List Packet) (pkt : Packet) (r : WriteResult) (post : List (Packet × WriteResult))
    (hr : r ≠ WriteResult.ok) :
    handleClientSend (pre.map (fun p => (p, WriteResult.ok)) ++ (pkt, r) :: post) c
      = handleClientSend (pre.map (fun p => (p, WriteResult.ok))) c ∧
    handleLogicSend P (pre.map (fun p => (p, WriteResult.ok)) ++ (pkt, r) :: post) c
      = handleLogicSend P (pre.map (fun p => (p, WriteResult.ok))) c ∧
    (handleClientSend (pre.map (fun p => (p, WriteResult.ok)) ++ (pkt, r) :: post) c).wire
      = c.wire ++ pre ∧
    (handleLogicSend P (pre.map (fun p => (p, WriteResult.ok)) ++ (pkt, r) :: post) c).wire
      = c.wire ++ pre ∧
    encodeCalls (pre.map (fun p => (p, WriteResult.ok)) ++ (pkt, r) :: post)
      = pre ++ [pkt] := by
  have h1 := handleClientSend_ok_append pre ((pkt, r) :: post) c
  rw [handleClientSend_fail_head pkt r post _ hr] at h1
  have h2 := handleLogicSend_ok_append P pre ((pkt, r) :: post) c
  rw [handleLogicSend_fail_head P pkt r post _ hr] at h2
  refine ⟨h1, h2, ?_, ?_, ?_⟩
  · rw [h1, handleClientSend_ok_wire]
  · rw [h2, handleLogicSend_ok_wire]
  · rw [encodeCalls_ok_append, encodeCalls_fail_head pkt r post hr]

/-- C16 at a concrete input: the control writer sends `PubRel(7)`, then the
flush of `PubAck(3)` fails; the queued `PubComp(3)` is never sent and only
the Store of the PubRel reaches the adapter. -/
theorem writer_failure_terminal_witness :
    WriteResult.flushErr ≠ WriteResult.ok ∧
    (handleLogicSend memPersist
      ([Packet.PubRel ⟨7⟩].map (fun p => (p, WriteResult.ok))
        ++ (Packet.PubAck ⟨3⟩, WriteResult.flushErr) :: [(Packet.PubComp ⟨3⟩, WriteResult.ok)])
      pendingQos1).wire = pendingQos1.wire ++ [Packet.PubRel ⟨7⟩] ∧
    (handleLogicSend memPersist
      [(Packet.PubRel ⟨7⟩, WriteResult.ok), (Packet.PubAck ⟨3⟩, WriteResult.flushErr),
        (Packet.PubComp ⟨3⟩, WriteResult.ok)] pendingQos1).persist
      = [(sendKey 7, Packet.PubRel ⟨7⟩), (sendKey 3, Packet.Publish (outPublish 1 "t" 3))] :=
  ⟨by decide,
   (writer_failure_terminal memPersist pendingQos1 [Packet.PubRel ⟨7⟩] (Packet.PubAck ⟨3⟩)
      WriteResult.flushErr [(Packet.PubComp ⟨3⟩, WriteResult.ok)] (by decide)).2.2.2.1,
   rfl⟩

/-! ## The reader -/

theorem handleRecv_oks (pkts : List Packet) (rest : List (Except Error Packet))
    (s : RecvConn) :
    handleRecv (pkts.map Except.ok ++ rest) s =
      handleRecv rest
        { s with decodeCalls := s.decodeCalls + pkts.length,
                 keepaliveC := s.keepaliveC ++ List.replicate (pkts.count Packet.PingResp) 1,
                 netRecvC := s.netRecvC ++ pkts.filter (fun p => decide (p ≠ Packet.PingResp)) } := by
  induction pkts generalizing s with
  | nil => simp
  | cons p pkts ih =>
    by_cases hp : p = Packet.PingResp
    · subst hp
      simp only [List.map_cons, List.cons_append, handleRecv, if_true]
      refine (ih _).trans ?_
      congr 1
      simp [List.replicate_succ, Nat.add_assoc, Nat.add_comm 1]
    · simp only [List.map_cons, List.cons_append, handleRecv, if_neg hp]
      refine (ih _).trans ?_
      congr 1
      have hne : (Packet.PingResp == p) = false := by
        simp only [beq_eq_false_iff_ne]
        exact fun h => hp h.symm
      simp [List.count_cons, hne, hp, Nat.add_assoc, Nat.add_comm 1]

/-- C17: on the decode results `p1..pn` followed by a decode error (and by
anything after it), the reader delivers to the dispatcher exactly the
packets among `p1..pn` that are not PingResp, in order; it sends one signal
to the keepalive monitor per PingResp; on the error it closes each of the
two channels once; and it calls the decoder `n + 1` times, so nothing
after the error is decoded. -/
theorem handleRecv_routes_in_order (pkts : List Packet) (e : Error)
    (post : List (Except Error Packet)) (s : RecvConn) :
    (handleRecv (pkts.map Except.ok ++ Except.error e :: post) s).netRecvC
      = s.netRecvC ++ pkts.filter (fun p => decide (p ≠ Packet.PingResp)) ∧
    (handleRecv (pkts.map Except.ok ++ Except.error e :: post) s).keepaliveC
      = s.keepaliveC ++ List.replicate (pkts.count Packet.PingResp) 1 ∧
    (handleRecv (pkts.map Except.ok ++ Except.error e :: post) s).netRecvClosed
      = s.netRecvClosed + 1 ∧
    (handleRecv (pkts.map Except.ok ++ Except.error e :: post) s).keepaliveClosed
      = s.keepaliveClosed + 1 ∧
    (handleRecv (pkts.map Except.ok ++ Except.error e :: post) s).decodeCalls
      = s.decodeCalls + pkts.length + 1 := by
  rw [handleRecv_oks]
  exact ⟨rfl, rfl, rfl, rfl, rfl⟩

/-! ## The keepalive monitor -/

theorem keepaliveStep_returned (period timeout : Nat) (keepStale : Bool) (m : Monitor)
    (inp : KeepaliveInput) (h : m.returned = true) :
    keepaliveStep period timeout keepStale m inp = m := by
  simp [keepaliveStep, h]

theorem keepalive_foldl_returned (period timeout : Nat) (keepStale : Bool)
    (evs : List KeepaliveInput) (m : Monitor) (h : m.returned = true) :
    evs.foldl (keepaliveStep period timeout keepStale) m = m := by
  induction evs with
  | nil => rfl
  | cons ev evs ih =>
    rw [List.foldl_cons, keepaliveStep_returned period timeout keepStale m ev h]
    exact ih

theorem wrapInt64_of_lt (x : Nat) (h : x < 2 ^ 63) : wrapInt64 (x : Int) = (x : Int) := by
  unfold wrapInt64
  have h1 : (x : Int) < 2 ^ 63 := by exact_mod_cast h
  omega

theorem tickPeriod_of_lt (ka : Nat) (h : ka * 3 < 2 ^ 63) :
    tickPeriod (ka : Int) = ((ka * 3 / 4 : Nat) : Int) := by
  unfold tickPeriod
  have hw : wrapInt64 ((ka : Int) * 3) = ((ka * 3 : Nat) : Int) := by
    have := wrapInt64_of_lt (ka * 3) h
    simpa using this
  rw [hw]
  exact (Int.ofNat_tdiv (ka * 3) 4).symm

/-- C18 fails as stated: with a keepalive period of 4 s and a timeout of
6 s (factor 1.5), and no PingResp ever, the first PingReq is sent 3 s after
the start and the transport is closed 6 s after the start, which is 3 s
after that PingReq, not 6 s after it. Times are in nanoseconds. -/
theorem keepalive_scenarioB_closes_3s_after_pingReq :
    keepalive 4000000000 6000000000 true [⟨ChanEvent.silent, false, false⟩] =
      some { now := 6000000000, nextTick := 6000000000, deadline := 6000000000,
             stale := false, pingReqs := [3000000000], closes := [6000000000],
             returned := true } ∧
    ¬ (∃ m, keepalive 4000000000 6000000000 true [⟨ChanEvent.silent, false, false⟩] = some m ∧
        m.pingReqs = [3000000000] ∧ m.closes = [3000000000 + 6000000000]) := by
  have h : keepalive 4000000000 6000000000 true [⟨ChanEvent.silent, false, false⟩] =
      some { now := 6000000000, nextTick := 6000000000, deadline := 6000000000,
             stale := false, pingReqs := [3000000000], closes := [6000000000],
             returned := true } := by
    decide
  refine ⟨h, ?_⟩
  rintro ⟨m, hm, _, hc⟩
  rw [h] at hm
  cases hm
  exact absurd hc (by decide)

theorem keepaliveStep_start_silent (period timeout : Nat) (keepStale first kept : Bool)
    (hle : period ≤ timeout) :
    keepaliveStep period timeout keepStale (keepaliveStart period timeout)
        ⟨ChanEvent.silent, first, kept⟩ =
      { now := timeout, nextTick := period + period * 1, deadline := timeout, stale := false,
        pingReqs := [period], closes := [timeout], returned := true } := by
  have h0 : (period - period) / period = 0 := by simp
  simp [keepaliveStep, keepaliveStart, Monitor.timedOut, hle, h0]

theorem keepaliveStep_start_signal (period timeout wait : Nat) (keepStale first kept : Bool)
    (hlt : period + wait < timeout) :
    keepaliveStep period timeout keepStale (keepaliveStart period timeout)
        ⟨ChanEvent.signal wait, first, kept⟩ =
      { now := period + wait, nextTick := period + period * 1,
        deadline := period + wait + timeout, stale := false,
        pingReqs := [period], closes := [], returned := false } := by
  have h0 : (period - period) / period = 0 := by simp
  have hle : period ≤ timeout := by omega
  have hne : ¬ (period + wait = timeout) := by omega
  simp [keepaliveStep, keepaliveStart, hle, h0, hlt, hne]

theorem keepaliveStep_deadline (period timeout : Nat) (keepStale : Bool) (m : Monitor)
    (inp : KeepaliveInput)
    (h : (keepaliveStep period timeout keepStale m inp).deadline ≠ m.deadline) :
    ∃ wait, inp.chan = ChanEvent.signal wait ∧
      (keepaliveStep period timeout keepStale m inp).deadline
        = max m.now m.nextTick + wait + timeout ∧
      (keepaliveStep period timeout keepStale m inp).now = max m.now m.nextTick + wait ∧
      (keepaliveStep period timeout keepStale m inp).closes = m.closes ∧
      (keepaliveStep period timeout keepStale m inp).returned = false := by
  unfold keepaliveStep at h ⊢
  by_cases hr : m.returned = true
  · simp [hr] at h
  · have hr2 : m.returned = false := by simpa using hr
    simp only [hr2] at h ⊢
    cases hc : inp.chan with
    | signal wait =>
      simp only [hc] at h ⊢
      refine ⟨wait, rfl, ?_⟩
      split_ifs at h ⊢ <;> first
        | exact absurd rfl h
        | exact ⟨rfl, rfl, rfl, rfl⟩
    | closed wait =>
      simp only [hc] at h ⊢
      split_ifs at h <;> exact absurd rfl h
    | silent =>
      simp only [hc] at h ⊢
      exact absurd rfl h

/-- C18 as amended: for every keepalive period `ka` (in nanoseconds) whose
`int64` product `ka * 3` does not overflow and whose ticker period
`ka * 3 / 4` is positive, and every `int64` timeout of at least `ka`
(factor at least 1): (1) the timer is armed for `timeout` when the monitor starts,
before any PingReq; (2) if the first `select` finds nothing on
`keepaliveC`, the monitor has sent one PingReq, at the first tick
`ka * 3 / 4` after the start, the timer was still the one armed at the
start, the transport has been closed exactly once, at `timeout` after the
start (that is `timeout - ka * 3 / 4` after the PingReq), and the monitor
has returned, so later inputs change nothing; (3) if instead a PingResp is
received `wait` after the PingReq and before the timer fires, the transport
is not closed and the timer is re-armed to fire `timeout` after the
receipt; (4) in any iteration from any state the timer deadline changes
only if a value was received from `keepaliveC`, and then to `timeout`
after the receipt. -/
theorem keepalive_silent_closes_at_timeout (ka timeout : Nat) (keepStale : Bool)
    (hov : ka * 3 < 2 ^ 63) (_hto : timeout < 2 ^ 63) (hp : 0 < ka * 3 / 4)
    (hF : ka ≤ timeout) :
    (∃ m0, keepalive ka timeout keepStale [] = some m0 ∧ m0.deadline = timeout ∧
      m0.pingReqs = [] ∧ m0.now = 0) ∧
    (∀ (first kept : Bool) (rest : List KeepaliveInput),
      ∃ m, keepalive ka timeout keepStale (⟨ChanEvent.silent, first, kept⟩ :: rest) = some m ∧
        m.pingReqs = [ka * 3 / 4] ∧ m.deadline = timeout ∧ m.closes = [timeout] ∧
        m.returned = true ∧
        keepalive ka timeout keepStale [⟨ChanEvent.silent, first, kept⟩] = some m) ∧
    (∀ (wait : Nat) (first kept : Bool), ka * 3 / 4 + wait < timeout →
      ∃ m, keepalive ka timeout keepStale [⟨ChanEvent.signal wait, first, kept⟩] = some m ∧
        m.pingReqs = [ka * 3 / 4] ∧ m.closes = [] ∧ m.returned = false ∧
        m.deadline = ka * 3 / 4 + wait + timeout) ∧
    (∀ (m : Monitor) (inp : KeepaliveInput),
      (keepaliveStep (ka * 3 / 4) timeout keepStale m inp).deadline ≠ m.deadline →
      ∃ wait, inp.chan = ChanEvent.signal wait ∧
        (keepaliveStep (ka * 3 / 4) timeout keepStale m inp).deadline
          = max m.now m.nextTick + wait + timeout ∧
        (keepaliveStep (ka * 3 / 4) timeout keepStale m inp).now
          = max m.now m.nextTick + wait ∧
        (keepaliveStep (ka * 3 / 4) timeout keepStale m inp).closes = m.closes ∧
        (keepaliveStep (ka * 3 / 4) timeout keepStale m inp).returned = false) := by
  have hle : ka * 3 / 4 ≤ timeout := by omega
  have htp : tickPeriod (ka : Int) = ((ka * 3 / 4 : Nat) : Int) := tickPeriod_of_lt ka hov
  have hpos : 0 < tickPeriod (ka : Int) := by
    rw [htp]
    exact_mod_cast hp
  have hrun : ∀ evs, keepalive ka timeout keepStale evs =
      some (evs.foldl (keepaliveStep (ka * 3 / 4) timeout keepStale)
        (keepaliveStart (ka * 3 / 4) timeout)) := by
    intro evs
    unfold keepalive
    rw [if_pos hpos, htp, Int.toNat_ofNat, Int.toNat_ofNat]
  refine ⟨⟨_, hrun [], rfl, rfl, rfl⟩, fun first kept rest => ?_, fun wait first kept hlt => ?_,
    fun m inp h => keepaliveStep_deadline _ _ _ m inp h⟩
  · refine ⟨Monitor.mk timeout (ka * 3 / 4 + ka * 3 / 4 * 1) timeout false [ka * 3 / 4]
      [timeout] true, ?_, rfl, rfl, rfl, rfl, ?_⟩
    · rw [hrun, List.foldl_cons, keepaliveStep_start_silent _ _ _ _ _ hle,
        keepalive_foldl_returned _ _ _ _ _ rfl]
    · rw [hrun, List.foldl_cons, keepaliveStep_start_silent _ _ _ _ _ hle]
      rfl
  · refine ⟨Monitor.mk (ka * 3 / 4 + wait) (ka * 3 / 4 + ka * 3 / 4 * 1)
      (ka * 3 / 4 + wait + timeout) false [ka * 3 / 4] [] false, ?_, rfl, rfl, rfl, rfl⟩
    rw [hrun, List.foldl_cons, keepaliveStep_start_signal _ _ _ _ _ _ hlt]
    rfl

/-- C18 as amended, on Scenario B: period 4 s, timeout 6 s. With no
PingResp the transport is closed 6 s after the start; with a PingResp 1 s
after the PingReq the timer is re-armed to fire at 4 s + 6 s. -/
theorem keepalive_silent_closes_at_timeout_witness :
    4000000000 * 3 < 2 ^ 63 ∧ 6000000000 < 2 ^ 63 ∧ 0 < 4000000000 * 3 / 4 ∧
    4000000000 ≤ 6000000000 ∧
    (∃ m, keepalive (4000000000 : Nat) (6000000000 : Nat) true
        [⟨ChanEvent.silent, false, false⟩, ⟨ChanEvent.signal 5, true, true⟩] = some m ∧
      m.pingReqs = [4000000000 * 3 / 4] ∧ m.deadline = 6000000000 ∧
      m.closes = [6000000000] ∧ m.returned = true ∧
      keepalive (4000000000 : Nat) (6000000000 : Nat) true
        [⟨ChanEvent.silent, false, false⟩] = some m) ∧
    (∃ m, keepalive (4000000000 : Nat) (6000000000 : Nat) true
        [⟨ChanEvent.signal 1000000000, false, false⟩] = some m ∧
      m.pingReqs = [4000000000 * 3 / 4] ∧ m.closes = [] ∧ m.returned = false ∧
      m.deadline = 4000000000 * 3 / 4 + 1000000000 + 6000000000) :=
  have t := keepalive_silent_closes_at_timeout 4000000000 6000000000 true
    (by decide) (by decide) (by decide) (by decide)
  ⟨by decide, by decide, by decide, by decide,
   t.2.1 false false [⟨ChanEvent.signal 5, true, true⟩],
   t.2.2.1 1000000000 false false (by decide)⟩

/-! ## Mismatched acknowledgments and redelivered publishes -/

/-- C19: when the correlation table maps the acknowledged ID to an entry
`o` of a kind that does not match the acknowledgment, the dispatcher step
returns the state unchanged (the ID is not freed, the table and the store
are as before, no event is emitted and no packet is queued): a SubAck when
`o` is not a Subscribe, an UnsubAck when `o` is not an Unsubscribe, a
PubAck when `o` is not a Publish with QoS 1, a PubRec or a PubComp when `o`
is not a Publish with QoS 2. -/
theorem logicStep_mismatched_ack_noop {σ : Type} (P : PersistMethod σ) (c : ClientConn σ)
    (id : PacketID) (codes : List QosLevel) (o : Packet)
    (h : c.idGen.getExtra id = some o) :
    ((∀ s, o ≠ Packet.Subscribe s) → logicStep P c (Packet.SubAck ⟨id, codes⟩) = c) ∧
    ((∀ u, o ≠ Packet.UnSub u) → logicStep P c (Packet.UnSubAck ⟨id⟩) = c) ∧
    ((∀ p, o = Packet.Publish p → p.Qos ≠ 1) → logicStep P c (Packet.PubAck ⟨id⟩) = c) ∧
    ((∀ p, o = Packet.Publish p → p.Qos ≠ 2) →
      logicStep P c (Packet.PubRecv ⟨id⟩) = c ∧ logicStep P c (Packet.PubComp ⟨id⟩) = c) := by
  refine ⟨fun hs => ?_, fun hu => ?_, fun hq => ?_, fun hq => ⟨?_, ?_⟩⟩
  · cases o <;> first
      | exact absurd rfl (hs _)
      | simp only [logicStep, h]
  · cases o <;> first
      | exact absurd rfl (hu _)
      | simp only [logicStep, h]
  · cases o with
    | Publish p =>
      have hne : ¬ p.Qos = Qos1 := hq p rfl
      simp only [logicStep, h, if_neg hne]
    | _ => simp only [logicStep, h]
  · cases o with
    | Publish p =>
      have hne : ¬ p.Qos = Qos2 := hq p rfl
      simp only [logicStep, h, if_neg hne]
    | _ => simp only [logicStep, h]
  · cases o with
    | Publish p =>
      have hne : ¬ p.Qos = Qos2 := hq p rfl
      simp only [logicStep, h, if_neg hne]
    | _ => simp only [logicStep, h]

/-- C19 at a concrete input: ID 3 maps to a QoS-1 publish; a SubAck, a
PubRec and a PubComp for ID 3 leave the state as it is. -/
theorem logicStep_mismatched_ack_noop_witness :
    pendingQos1.idGen.getExtra 3 = some (Packet.Publish (outPublish 1 "t" 3)) ∧
    logicStep memPersist pendingQos1 (Packet.SubAck ⟨3, [1]⟩) = pendingQos1 ∧
    logicStep memPersist pendingQos1 (Packet.PubRecv ⟨3⟩) = pendingQos1 ∧
    logicStep memPersist pendingQos1 (Packet.PubComp ⟨3⟩) = pendingQos1 :=
  have t := logicStep_mismatched_ack_noop memPersist pendingQos1 3 [1]
    (Packet.Publish (outPublish 1 "t" 3)) rfl
  have hq : ∀ p, Packet.Publish (outPublish 1 "t" 3) = Packet.Publish p → p.Qos ≠ 2 :=
    fun p hp => by
      cases hp
      decide
  ⟨rfl, t.1 (fun s hs => by cases hs), (t.2.2.2 hq).1, (t.2.2.2 hq).2⟩

theorem logicStep_recvC {σ : Type} (P : PersistMethod σ) (c : ClientConn σ) (pkt : Packet) :
    (logicStep P c pkt).recvC = c.recvC ++ inboxOf pkt := by
  cases pkt with
  | Publish p =>
    simp only [logicStep]
    split_ifs <;> simp [persistStore_eq, ClientConn.send, inboxOf]
  | SubAck p =>
    simp only [logicStep]
    cases c.idGen.getExtra p.PacketID with
    | none => simp [inboxOf]
    | some o => cases o <;> simp [inboxOf, persistDelete_eq, ClientConn.emit]
  | UnSubAck p =>
    simp only [logicStep]
    cases c.idGen.getExtra p.PacketID with
    | none => simp [inboxOf]
    | some o => cases o <;> simp [inboxOf, persistDelete_eq, ClientConn.emit]
  | PubAck p =>
    simp only [logicStep]
    cases c.idGen.getExtra p.PacketID with
    | none => simp [inboxOf]
    | some o =>
      cases o <;> simp only [] <;> (try split_ifs) <;>
        simp [inboxOf, persistDelete_eq, ClientConn.emit]
  | PubRecv p =>
    simp only [logicStep]
    cases c.idGen.getExtra p.PacketID with
    | none => simp [inboxOf]
    | some o =>
      cases o <;> simp only [] <;> (try split_ifs) <;>
        simp [inboxOf, ClientConn.send]
  | PubRel p =>
    simp only [logicStep]
    cases c.idGen.getExtra p.PacketID with
    | none => simp [inboxOf]
    | some o =>
      cases o <;> simp only [] <;> (try split_ifs) <;>
        simp [inboxOf, persistStore_eq, ClientConn.send]
  | PubComp p =>
    simp only [logicStep]
    cases c.idGen.getExtra p.PacketID with
    | none => simp [inboxOf]
    | some o =>
      cases o <;> simp only [] <;> (try split_ifs) <;>
        simp [inboxOf, persistDelete_eq, ClientConn.emit, ClientConn.send]
  | _ => simp [logicStep, inboxOf]

theorem logicStep_publish_logicSendC {σ : Type} (P : PersistMethod σ) (c : ClientConn σ)
    (p : PublishPacket) :
    (logicStep P c (Packet.Publish p)).logicSendC =
      c.logicSendC ++ (if p.Qos = Qos1 then [Packet.PubAck ⟨p.PacketID⟩]
        else if p.Qos = Qos2 then [Packet.PubRecv ⟨p.PacketID⟩] else []) := by
  simp only [logicStep]
  split_ifs <;> simp [persistStore_eq, ClientConn.send]

/-- C20: the dispatcher does not suppress duplicates. Processing the same
inbound Publish `p` twice in a row appends `p` twice to the application
inbox, and queues `PubAck(p.id)` twice when `p` has QoS 1, `PubRec(p.id)`
twice when it has QoS 2; and for every packet the inbox delivery of a step
is the same under any two adapters and any two states with the same inbox,
whatever their stores hold. -/
theorem logic_publish_twice_delivers_twice {σ τ : Type} (P : PersistMethod σ)
    (Q : PersistMethod τ) (c : ClientConn σ) (d : ClientConn τ) (p : PublishPacket) :
    (logic P c [Packet.Publish p, Packet.Publish p]).recvC = c.recvC ++ [p, p] ∧
    (p.Qos = 1 →
      (logic P c [Packet.Publish p, Packet.Publish p]).logicSendC
        = c.logicSendC ++ [Packet.PubAck ⟨p.PacketID⟩, Packet.PubAck ⟨p.PacketID⟩]) ∧
    (p.Qos = 2 →
      (logic P c [Packet.Publish p, Packet.Publish p]).logicSendC
        = c.logicSendC ++ [Packet.PubRecv ⟨p.PacketID⟩, Packet.PubRecv ⟨p.PacketID⟩]) ∧
    (∀ pkt, c.recvC = d.recvC → (logicStep P c pkt).recvC = (logicStep Q d pkt).recvC) := by
  have hrun : logic P c [Packet.Publish p, Packet.Publish p]
      = logicStep P (logicStep P c (Packet.Publish p)) (Packet.Publish p) := rfl
  refine ⟨?_, fun h1 => ?_, fun h2 => ?_, fun pkt hcd => ?_⟩
  · rw [hrun, logicStep_recvC, logicStep_recvC]
    simp [inboxOf]
  · rw [hrun, logicStep_publish_logicSendC, logicStep_publish_logicSendC]
    simp [h1, Qos1]
  · rw [hrun, logicStep_publish_logicSendC, logicStep_publish_logicSendC]
    simp [h2, Qos1, Qos2]
  · rw [logicStep_recvC, logicStep_recvC, hcd]

/-- C20 at a concrete input: an inbound QoS-1 publish with ID 9 is
processed twice; the second time its recv-entry is already in the store,
and it is delivered and acknowledged again. -/
theorem logic_publish_twice_delivers_twice_witness :
    (logicStep memPersist (connOf []) (Packet.Publish (outPublish 1 "n" 9))).persist
      = [(recvKey 9, Packet.Publish (outPublish 1 "n" 9))] ∧
    (logic memPersist (connOf [])
      [Packet.Publish (outPublish 1 "n" 9), Packet.Publish (outPublish 1 "n" 9)]).recvC
      = (connOf []).recvC ++ [outPublish 1 "n" 9, outPublish 1 "n" 9] ∧
    (logic memPersist (connOf [])
      [Packet.Publish (outPublish 1 "n" 9), Packet.Publish (outPublish 1 "n" 9)]).logicSendC
      = (connOf []).logicSendC ++ [Packet.PubAck ⟨9⟩, Packet.PubAck ⟨9⟩] :=
  have t := logic_publish_twice_delivers_twice memPersist memPersist (connOf []) (connOf [])
    (outPublish 1 "n" 9)
  ⟨rfl, t.1, t.2.1 rfl⟩

end Libmqtt
